import Mathlib

/-!
Shallow embedding of the `SurvivalPathGame` room/session engine
(`src/unnamed/part_000`, the full variant with rounds, hosts, passwords and
board-marker positions), used to check the specification's claims.

Modelling conventions:
* JS objects used as string-keyed maps become association lists
  (`List (String × α)`) in insertion order; JS `obj[k] = v` is
  replace-in-place-or-append, `delete obj[k]` removes the first (unique)
  binding, `Object.entries`/`Object.keys` iterate in list order.
* `Math.random()` is an oracle `R : Nat → Nat` threaded through the state with
  a cursor `rngUses`; `Math.floor(Math.random() * n)` is `R cursor % n`.
* Numbers are `Int` (positions, scores, card values) or `Nat` (counters).
* A JS `throw` is an `Except.error` paired with the state as mutated so far;
  since state mutation is in place in the source, the state component of every
  operation is returned even on error.
* Reading a missing array index (JS `undefined`) inside the board is modelled
  as the marker value `0`, which is never a legal marker; drawing from an
  empty pile yields `none` for that card.
-/

/-- A card from the catalog: `type`, `effect` and `value` fields of the JSON
card objects.  A JS card with no `effect`/`value` field is modelled with
`effect := ""` / `value := 0` (both JS-falsy). -/
structure Card where
  ctype : String
  effect : String
  value : Int
deriving DecidableEq

/-- A player object as built by `addPlayerToRoom`.  `isBlocked` starts out
absent in JS (falsy), modelled as `false`. -/
structure Player where
  username : String
  position : Int
  moves : Int
  score : Int
  hand : List Card
  roundWins : Nat
  isHost : Bool
  isBlocked : Bool
deriving DecidableEq

/-- The `gameState` object created by `setup()`.  The unused `players` field of
the JS literal is omitted (the code reads `room.players` only). -/
structure GameState where
  board : List Int
  cardDeck : List Card
  turn : Nat
  turnOrder : List String
  currentTurn : Option String
  winner : Option String
  timer : Int
  currentRound : Nat
  roundTimer : Int
  roundWinners : List String
  gameStarted : Bool
deriving DecidableEq

/-- A room entry of `this.rooms`.  The two `setInterval` handles are modelled
as activity flags (`true` = a live interval, `false` = `null`/cleared). -/
structure Room where
  gameState : GameState
  players : List (String × Player)
  timerInterval : Bool
  roundInterval : Bool
  isPublic : Bool
  hasStarted : Bool
  hostId : Option String
  disconnectedPlayers : List String
deriving DecidableEq

/-- The `SurvivalPathGame` instance: room table, master catalog, randomness
oracle with cursor, and the bookkeeping sets.  `reshuffleCount` counts the
"Deck reset and shuffled" log events of `drawCards`. -/
structure Game where
  rooms : List (String × Room)
  cards : List Card
  R : Nat → Nat
  rngUses : Nat
  reshuffleCount : Nat
  publicRooms : List String
  roomPasswords : List (String × String)
  aiPlayers : List String

/-- The `Error`s thrown by the engine, by throw site. -/
inductive GameErr where
  | roomExists
  | roomNotFound
  | gameAlreadyStarted
  | roomFull
  | invalidPassword
  | gameNotStarted
  | playerNotFound
  | invalidCardIndex
  | notYourTurn
  | gameEnded
  | mustSelectTarget
  | invalidRoomOrPlayer
  | invalidCardData
  | swapTargetMissing
  | swapSelf
  | invalidTarget
  | targetSelf
  | noPointsToSteal
  | noCardsToSteal
  | boardMissing
  | notEnoughPlayers
deriving DecidableEq

/-- Result of a successful `playCard` (the JS result object's `message`/`hand`
payload is presentation only and is omitted). -/
inductive PlayOk where
  | wonRound
  | played
deriving DecidableEq

/- Constants of the constructor. -/

def ROUNDS_PER_GAME : Nat := 3
def ROUND_TIME : Int := 300
def MIN_PLAYERS : Nat := 2
def WINNING_POINTS : Int := 20
def BOARD_SIZE : Int := 45
def MAX_PLAYERS : Nat := 6

/- Association-list primitives for JS objects / Maps. -/

/-- First-match lookup, `obj[k]`. -/
def lookupA {α : Type} : List (String × α) → String → Option α
  | [], _ => none
  | (k, v) :: rest, key => if k = key then some v else lookupA rest key

/-- Update the (first) binding of `key` in place, a no-op if absent. -/
def updA {α : Type} : List (String × α) → String → (α → α) → List (String × α)
  | [], _, _ => []
  | (k, v) :: rest, key, f =>
    if k = key then (k, f v) :: rest else (k, v) :: updA rest key f

/-- `obj[k] = v`: replace the binding in place if present, else append. -/
def insertA {α : Type} : List (String × α) → String → α → List (String × α)
  | [], key, v => [(key, v)]
  | (k, w) :: rest, key, v =>
    if k = key then (k, v) :: rest else (k, w) :: insertA rest key v

/-- `delete obj[k]`: drop the (first) binding of `key`. -/
def eraseA {α : Type} : List (String × α) → String → List (String × α)
  | [], _ => []
  | (k, v) :: rest, key => if k = key then rest else (k, v) :: eraseA rest key

/-- `Array.prototype.indexOf`: index of the first occurrence, `-1` if absent. -/
def jsIndexOf {α : Type} [DecidableEq α] (l : List α) (x : α) : Int :=
  match l.findIdx? (fun y => y = x) with
  | some i => (i : Int)
  | none => -1

/-- `board[i]` for a possibly out-of-range `Int` index; JS `undefined` is
modelled as the impossible marker `0`. -/
def jsGetI (l : List Int) (i : Int) : Int :=
  if i < 0 then 0 else (l.get? i.toNat).getD 0

/- Fisher–Yates shuffle (`shuffleDeck`). -/

/-- Swap two positions of a list (the JS destructuring swap); a no-op when an
index is out of range (never happens at the call sites). -/
def listSwap {α : Type} (l : List α) (i j : Nat) : List α :=
  match l.get? i, l.get? j with
  | some a, some b => (l.set i b).set j a
  | _, _ => l

/-- The Fisher–Yates loop: at countdown index `i+1` pick
`j = R k % (i+2)` (the `Math.floor(Math.random() * (i + 1))` with the JS `i`)
and swap.  Returns the shuffled list and the advanced oracle cursor. -/
def fyGo {α : Type} (R : Nat → Nat) : List α → Nat → Nat → List α × Nat
  | l, k, 0 => (l, k)
  | l, k, i + 1 => fyGo R (listSwap l (i + 1) (R k % (i + 2))) (k + 1) i

/-- `shuffleDeck(deck)` on a game state: shuffles in place, consuming oracle
values. -/
def shuffleList {α : Type} (g : Game) (l : List α) : List α × Game :=
  let p := fyGo g.R l g.rngUses (l.length - 1)
  (p.1, { g with rngUses := p.2 })

/- `drawCards` -/

/-- Result of the draw loop. -/
structure DrawRes where
  drawn : List (Option Card)
  deck : List Card
  cursor : Nat
  resets : Nat

/-- The body of `drawCards`: `count` iterations of
`if (deck.length === 0) { deck = shuffleDeck([...cards]) } ; cards.push(deck.pop())`. -/
def drawLoop (cards : List Card) (R : Nat → Nat) :
    Nat → List Card → Nat → DrawRes
  | 0, deck, k => ⟨[], deck, k, 0⟩
  | n + 1, deck, k =>
    if deck.isEmpty then
      let sh := fyGo R cards k (cards.length - 1)
      let r := drawLoop cards R n sh.1.dropLast sh.2
      ⟨sh.1.getLast? :: r.drawn, r.deck, r.cursor, r.resets + 1⟩
    else
      let r := drawLoop cards R n deck.dropLast k
      ⟨deck.getLast? :: r.drawn, r.deck, r.cursor, r.resets⟩

/-- `drawCards(roomId, count)`. -/
def drawCards (g : Game) (roomId : String) (count : Nat) :
    List (Option Card) × Game :=
  match lookupA g.rooms roomId with
  | none => ([], g)
  | some room =>
    let r := drawLoop g.cards g.R count room.gameState.cardDeck g.rngUses
    (r.drawn,
      { g with
          rooms := updA g.rooms roomId (fun rm =>
            { rm with gameState := { rm.gameState with cardDeck := r.deck } }),
          rngUses := r.cursor,
          reshuffleCount := g.reshuffleCount + r.resets })

/- Room construction. -/

/-- `Array.from({length: 45}, (_, i) => i + 1)`. -/
def stdBoard : List Int := (List.range 45).map (fun i => (i : Int) + 1)

/-- `setup()`. -/
def setup (g : Game) : GameState × Game :=
  let sh := shuffleList g g.cards
  ({ board := stdBoard
     cardDeck := sh.1
     turn := 0
     turnOrder := []
     currentTurn := none
     winner := none
     timer := 30
     currentRound := 1
     roundTimer := ROUND_TIME
     roundWinners := []
     gameStarted := false }, sh.2)

/-- `createRoom(roomId, isPublic, password)`. -/
def createRoom (g : Game) (roomId : String) (isPublic : Bool)
    (password : Option String) : Except GameErr Unit × Game :=
  if (lookupA g.rooms roomId).isSome then (.error .roomExists, g)
  else
    let s := setup g
    let room : Room :=
      { gameState := s.1
        players := []
        timerInterval := false
        roundInterval := false
        isPublic := isPublic
        hasStarted := false
        hostId := none
        disconnectedPlayers := [] }
    let g1 := { s.2 with rooms := s.2.rooms ++ [(roomId, room)] }
    let g2 :=
      if isPublic then { g1 with publicRooms := g1.publicRooms ++ [roomId] } else g1
    let g3 :=
      match password with
      | some pw => { g2 with roomPasswords := insertA g2.roomPasswords roomId pw }
      | none => g2
    (.ok (), g3)

/-- `addPlayerToRoom(roomId, playerId, username, password)`. -/
def addPlayerToRoom (g : Game) (roomId playerId username : String)
    (password : Option String) : Except GameErr Unit × Game :=
  match lookupA g.rooms roomId with
  | none => (.error .roomNotFound, g)
  | some room =>
    if room.hasStarted then (.error .gameAlreadyStarted, g)
    else if MAX_PLAYERS ≤ room.players.length then (.error .roomFull, g)
    else if (lookupA g.roomPasswords roomId).isSome
        ∧ password ≠ lookupA g.roomPasswords roomId then
      (.error .invalidPassword, g)
    else
      -- first joiner becomes host
      let hostId1 := if room.players.length = 0 then some playerId else room.hostId
      -- the hand is drawn (mutating the room deck) before the player is stored
      let dc := drawCards g roomId 3
      let newPlayer : Player :=
        { username :=
            if username = "" then "Player " ++ toString (room.players.length + 1)
            else username
          position := jsGetI room.gameState.board 0
          moves := 0
          score := 0
          hand := dc.1.reduceOption
          roundWins := 0
          isHost := hostId1 = some playerId
          isBlocked := false }
      let turnOrder1 := room.gameState.turnOrder ++ [playerId]
      (.ok (),
        { dc.2 with
            rooms := updA dc.2.rooms roomId (fun rm =>
              { rm with
                  hostId := hostId1
                  players := insertA rm.players playerId newPlayer
                  gameState :=
                    { rm.gameState with
                        turnOrder := turnOrder1
                        currentTurn :=
                          if turnOrder1.length = 1 then some playerId
                          else rm.gameState.currentTurn } }) })

/- Turn rotation (`endTurn`). -/

/-- `room.players[pid]?.isBlocked` (undefined is falsy). -/
def blockedOf (ps : List (String × Player)) (pid : String) : Bool :=
  ((lookupA ps pid).map Player.isBlocked).getD false

/-- Number of players whose `isBlocked` flag is set. -/
def countBlocked (ps : List (String × Player)) : Nat :=
  (ps.filter (fun e => e.2.isBlocked)).length

/-- The `while (room.players[nextPlayerId]?.isBlocked)` loop of `endTurn`,
with explicit fuel: clear the flag and advance until an un-blocked player is
reached.  Returns the updated player table and the final rotation index. -/
def endTurnLoop (order : List String) :
    List (String × Player) → Nat → Nat → Option (List (String × Player) × Nat)
  | _, _, 0 => none
  | ps, idx, fuel + 1 =>
    let pid := order.getD idx ""
    if blockedOf ps pid then
      endTurnLoop order (updA ps pid (fun p => { p with isBlocked := false }))
        ((idx + 1) % order.length) fuel
    else some (ps, idx)

/-- The player table after the first `j` iterations of the `endTurn` loop
starting at rotation index `idx`, in an all-blocked rotation: the players at
indices `idx, idx+1, …, idx+j-1` (mod the rotation length) are unblocked. -/
def unblockFrom (order : List String) (ps : List (String × Player)) (idx j : Nat) :
    List (String × Player) :=
  (List.range j).foldl (fun acc s =>
    updA acc (order.getD ((idx + s) % order.length) "")
      (fun p => { p with isBlocked := false })) ps

/-- `endTurn(roomId)`. -/
def endTurn (g : Game) (roomId : String) : Game :=
  match lookupA g.rooms roomId with
  | none => g
  | some room =>
    -- clear the turn timer and drop departed players from the rotation
    let order := room.gameState.turnOrder.filter
      (fun pid => (lookupA room.players pid).isSome)
    let room1 :=
      { room with
          timerInterval := false
          gameState := { room.gameState with turnOrder := order } }
    if order.length = 0 then
      { g with rooms := updA g.rooms roomId (fun _ => room1) }
    else
      let curIdx : Int :=
        match room.gameState.currentTurn with
        | none => -1
        | some pid => jsIndexOf order pid
      let idx0 : Nat := (curIdx + 1).toNat % order.length
      -- fuel exceeding the number of blocked players; the loop never runs out
      let res := (endTurnLoop order room1.players idx0
        (countBlocked room1.players + order.length + 1)).getD (room1.players, idx0)
      { g with
          rooms := updA g.rooms roomId (fun _ =>
            { room1 with
                players := res.1
                gameState :=
                  { room1.gameState with
                      currentTurn := some (order.getD res.2 "")
                      turn := room1.gameState.turn + 1 } }) }

/- Rounds. -/

/-- `room.players[pid].position` as read inside the winner reduction. -/
def playerPosD (ps : List (String × Player)) (pid : String) : Int :=
  ((lookupA ps pid).map Player.position).getD 0

/-- `room.players[pid].score` as read inside the game-winner reduction. -/
def playerScoreD (ps : List (String × Player)) (pid : String) : Int :=
  ((lookupA ps pid).map Player.score).getD 0

/-- The `reduce` of `endRound`: first player (insertion order) with the
strictly greatest position. -/
def roundWinnerFold (ps : List (String × Player)) : Option String :=
  ps.foldl (fun prev e =>
    match prev with
    | none => some e.1
    | some pid => if playerPosD ps pid < e.2.position then some e.1 else prev) none

/-- The `reduce` of `endGame`: first player with the strictly greatest score. -/
def gameWinnerFold (ps : List (String × Player)) : Option String :=
  ps.foldl (fun prev e =>
    match prev with
    | none => some e.1
    | some pid => if playerScoreD ps pid < e.2.score then some e.1 else prev) none

/-- `startRound(roomId)`: reset positions and moves, restart the round timer. -/
def startRound (g : Game) (roomId : String) : Game :=
  match lookupA g.rooms roomId with
  | none => g
  | some _ =>
    { g with
        rooms := updA g.rooms roomId (fun rm =>
          { rm with
              players := rm.players.map (fun e =>
                (e.1, { e.2 with position := jsGetI rm.gameState.board 0, moves := 0 }))
              roundInterval := true
              gameState := { rm.gameState with roundTimer := ROUND_TIME } }) }

/-- `endGame(roomId)`: record the overall winner and cancel both timers. -/
def endGame (g : Game) (roomId : String) : Game :=
  match lookupA g.rooms roomId with
  | none => g
  | some _ =>
    { g with
        rooms := updA g.rooms roomId (fun rm =>
          { rm with
              timerInterval := false
              roundInterval := false
              gameState :=
                { rm.gameState with winner := gameWinnerFold rm.players } }) }

/-- `endRound(roomId)`. -/
def endRound (g : Game) (roomId : String) : Game :=
  match lookupA g.rooms roomId with
  | none => g
  | some room =>
    let w := roundWinnerFold room.players
    let room1 := { room with roundInterval := false }
    let room2 :=
      match w with
      | some pid =>
        { room1 with
            players := updA room1.players pid (fun p =>
              { p with roundWins := p.roundWins + 1, score := p.score + WINNING_POINTS })
            gameState :=
              { room1.gameState with
                  roundWinners := room1.gameState.roundWinners ++ [pid] } }
      | none => room1
    let g1 := { g with rooms := updA g.rooms roomId (fun _ => room2) }
    if ROUNDS_PER_GAME ≤ room2.gameState.currentRound then endGame g1 roomId
    else
      let g2 := { g1 with
        rooms := updA g1.rooms roomId (fun rm =>
          { rm with gameState :=
              { rm.gameState with currentRound := rm.gameState.currentRound + 1 } }) }
      startRound g2 roomId

/-- `startGame(roomId)` (a missing room returns without an error). -/
def startGame (g : Game) (roomId : String) : Except GameErr Unit × Game :=
  match lookupA g.rooms roomId with
  | none => (.ok (), g)
  | some room =>
    if room.players.length < MIN_PLAYERS then (.error .notEnoughPlayers, g)
    else
      let g1 := { g with
        rooms := updA g.rooms roomId (fun rm =>
          { rm with
              hasStarted := true
              gameState := { rm.gameState with gameStarted := true } }) }
      (.ok (), startRound g1 roomId)

/- Card effects. -/

/-- `shuffleBoard(roomId)`: permute the board; each player keeps their marker
value (reset to the first marker only if the value vanished, which a
permutation never causes). -/
def shuffleBoard (g : Game) (roomId : String) : Except GameErr Unit × Game :=
  match lookupA g.rooms roomId with
  | none => (.error .boardMissing, g)
  | some room =>
    let sh := shuffleList g room.gameState.board
    let board1 := sh.1
    (.ok (),
      { sh.2 with
          rooms := updA sh.2.rooms roomId (fun _ =>
            { room with
                gameState := { room.gameState with board := board1 }
                players := room.players.map (fun e =>
                  if jsIndexOf board1 e.2.position = -1 then
                    (e.1, { e.2 with position := jsGetI board1 0 })
                  else e) }) })

/-- `drawForEveryone(roomId)`: each present player draws one card, in
insertion order. -/
def drawForEveryone (g : Game) (roomId : String) : Game :=
  match lookupA g.rooms roomId with
  | none => g
  | some room =>
    (room.players.map Prod.fst).foldl (fun acc pid =>
      let dc := drawCards acc roomId 1
      { dc.2 with
          rooms := updA dc.2.rooms roomId (fun rm =>
            { rm with players := updA rm.players pid (fun p =>
                { p with hand := p.hand ++ dc.1.reduceOption }) }) }) g

/-- `handleEventCard(roomId, playerId, card, targetPlayerId)`. -/
def handleEventCard (g : Game) (roomId playerId : String) (card : Card)
    (targetPlayerId : Option String) : Except GameErr Unit × Game :=
  match lookupA g.rooms roomId with
  | none => (.error .invalidRoomOrPlayer, g)
  | some room =>
    match lookupA room.players playerId with
    | none => (.error .invalidRoomOrPlayer, g)
    | some player =>
      if card.effect = "" then (.error .invalidCardData, g)
      else if card.effect = "Swap Places" then
        match targetPlayerId with
        | none => (.error .swapTargetMissing, g)
        | some tid =>
          match lookupA room.players tid with
          | none => (.error .swapTargetMissing, g)
          | some target =>
            if tid = playerId then (.error .swapSelf, g)
            else
              (.ok (),
                { g with rooms := updA g.rooms roomId (fun rm =>
                    let ps1 := updA rm.players playerId
                      (fun p => { p with position := target.position })
                    let ps2 := updA ps1 tid
                      (fun p => { p with position := player.position })
                    { rm with players := ps2 }) })
      else if card.effect = "Shuffle Board" then shuffleBoard g roomId
      else if card.effect = "Free Move" then
        (.ok (),
          { g with rooms := updA g.rooms roomId (fun rm =>
              { rm with players := updA rm.players playerId (fun p =>
                  { p with position := p.position + card.value,
                           score := p.score + card.value }) }) })
      else if card.effect = "Draw 1 for Everyone" then
        (.ok (), drawForEveryone g roomId)
      else if card.effect = "Bonus Round" then
        (.ok (),
          { g with rooms := updA g.rooms roomId (fun rm =>
              { rm with players := updA rm.players playerId (fun p =>
                  { p with score := p.score + 10 }) }) })
      else
        -- unknown event effects are logged and ignored
        (.ok (), g)

/-- `handleMindPlayCard(roomId, playerId, targetPlayerId, card)`. -/
def handleMindPlayCard (g : Game) (roomId playerId : String)
    (targetPlayerId : Option String) (card : Card) :
    Except GameErr Unit × Game :=
  match lookupA g.rooms roomId with
  | none => (.error .invalidRoomOrPlayer, g)
  | some room =>
    if (lookupA room.players playerId).isNone then (.error .invalidRoomOrPlayer, g)
    else
      match targetPlayerId with
      | none => (.error .invalidTarget, g)
      | some tid =>
        match lookupA room.players tid with
        | none => (.error .invalidTarget, g)
        | some target =>
          if tid = playerId then (.error .targetSelf, g)
          else if card.effect = "" then (.error .invalidCardData, g)
          else if card.effect = "Discard Opponent Card" then
            (.ok (),
              { g with rooms := updA g.rooms roomId (fun rm =>
                  { rm with players := updA rm.players tid (fun p =>
                      { p with hand := p.hand.dropLast }) }) })
          else if card.effect = "Skip Opponent Turn" then
            (.ok (),
              { g with rooms := updA g.rooms roomId (fun rm =>
                  { rm with players := updA rm.players tid (fun p =>
                      { p with isBlocked := true }) }) })
          else if card.effect = "Steal 5 Points" then
            if target.score ≤ 0 then (.error .noPointsToSteal, g)
            else
              let stolenPoints := min target.score card.value
              (.ok (),
                { g with rooms := updA g.rooms roomId (fun rm =>
                    let ps1 := updA rm.players tid
                      (fun p => { p with score := p.score - stolenPoints })
                    let ps2 := updA ps1 playerId
                      (fun p => { p with score := p.score + stolenPoints })
                    { rm with players := ps2 }) })
          else if card.effect = "Steal A Random Card From Opponent" then
            if target.hand.length = 0 then (.error .noCardsToSteal, g)
            else
              let randomIndex := g.R g.rngUses % target.hand.length
              let stolenCard := target.hand.get? randomIndex
              let g1 := { g with rngUses := g.rngUses + 1 }
              (.ok (),
                { g1 with rooms := updA g1.rooms roomId (fun rm =>
                    let ps1 := updA rm.players tid
                      (fun p => { p with hand := p.hand.eraseIdx randomIndex })
                    let ps2 := updA ps1 playerId
                      (fun p => { p with hand := p.hand ++ stolenCard.toList })
                    { rm with players := ps2 }) })
          else
            -- unknown mind-play effects are logged and ignored
            (.ok (), g)

/-- The common tail of a non-winning `playCard`: splice out the played card,
draw one replacement, push it, and advance the turn. -/
def finishPlay (g : Game) (roomId playerId : String) (cardIndex : Int) :
    Except GameErr PlayOk × Game :=
  let g1 := { g with rooms := updA g.rooms roomId (fun rm =>
      { rm with players := updA rm.players playerId (fun p =>
          { p with hand := p.hand.eraseIdx cardIndex.toNat }) }) }
  let dc := drawCards g1 roomId 1
  let g2 := { dc.2 with rooms := updA dc.2.rooms roomId (fun rm =>
      { rm with players := updA rm.players playerId (fun p =>
          { p with hand := p.hand ++ dc.1.reduceOption }) }) }
  (.ok .played, endTurn g2 roomId)

/-- `playCard(roomId, playerId, cardIndex, targetPlayerId, direction)`. -/
def playCard (g : Game) (roomId playerId : String) (cardIndex : Int)
    (targetPlayerId : Option String) (direction : String) :
    Except GameErr PlayOk × Game :=
  match lookupA g.rooms roomId with
  | none => (.error .roomNotFound, g)
  | some room =>
    if room.gameState.gameStarted = false then (.error .gameNotStarted, g)
    else
      match lookupA room.players playerId with
      | none => (.error .playerNotFound, g)
      | some player =>
        if (player.hand.length : Int) ≤ cardIndex ∨ cardIndex < 0 then
          (.error .invalidCardIndex, g)
        else if room.gameState.currentTurn ≠ some playerId then
          (.error .notYourTurn, g)
        else if room.gameState.winner.isSome then (.error .gameEnded, g)
        else
          match player.hand.get? cardIndex.toNat with
          | none => (.error .invalidCardIndex, g)
          | some card =>
            if (card.ctype = "Mind Play"
                  ∨ (card.ctype = "Event" ∧ card.effect = "Swap Places"))
                ∧ (targetPlayerId.bind (lookupA room.players)).isNone then
              (.error .mustSelectTarget, g)
            else if card.ctype = "Move" then
              let movement : Int :=
                if direction = "forward" then card.value else -card.value
              let currentIndex : Int := jsIndexOf room.gameState.board player.position
              let newIndex : Int :=
                if direction = "forward" then
                  min (BOARD_SIZE - 1) (currentIndex + movement)
                else max 0 (currentIndex - card.value)
              let newPos : Int := jsGetI room.gameState.board newIndex
              let g1 := { g with rooms := updA g.rooms roomId (fun rm =>
                  { rm with players := updA rm.players playerId (fun p =>
                      { p with
                          position := newPos
                          moves := p.moves + (movement.natAbs : Int)
                          score := p.score + (movement.natAbs : Int) }) }) }
              if newPos = BOARD_SIZE then (.ok .wonRound, endRound g1 roomId)
              else finishPlay g1 roomId playerId cardIndex
            else if card.ctype = "Event" then
              match handleEventCard g roomId playerId card targetPlayerId with
              | (.error e, g1) => (.error e, g1)
              | (.ok _, g1) => finishPlay g1 roomId playerId cardIndex
            else if card.ctype = "Mind Play" then
              match handleMindPlayCard g roomId playerId targetPlayerId card with
              | (.error e, g1) => (.error e, g1)
              | (.ok _, g1) => finishPlay g1 roomId playerId cardIndex
            else finishPlay g roomId playerId cardIndex

/-- `handleDisconnectedPlayer(roomId, playerId)`. -/
def handleDisconnectedPlayer (g : Game) (roomId playerId : String) : Game :=
  match lookupA g.rooms roomId with
  | none => g
  | some room =>
    if room.hasStarted then
      let g1 := { g with rooms := updA g.rooms roomId (fun rm =>
          { rm with disconnectedPlayers :=
              if playerId ∈ rm.disconnectedPlayers then rm.disconnectedPlayers
              else rm.disconnectedPlayers ++ [playerId] }) }
      { g1 with aiPlayers :=
          if playerId ∈ g1.aiPlayers then g1.aiPlayers
          else g1.aiPlayers ++ [playerId] }
    else
      { g with rooms := updA g.rooms roomId (fun rm =>
          { rm with
              players := eraseA rm.players playerId
              gameState :=
                { rm.gameState with
                    turnOrder :=
                      let i := jsIndexOf rm.gameState.turnOrder playerId
                      if -1 < i then rm.gameState.turnOrder.eraseIdx i.toNat
                      else rm.gameState.turnOrder } }) }

/- Invariant predicates used by the claims. -/

/-- The turn invariant: whenever the rotation is non-empty, the current turn
holder is one of its members. -/
def TurnInv (room : Room) : Prop :=
  room.gameState.turnOrder ≠ [] →
    ∃ pid, room.gameState.currentTurn = some pid ∧ pid ∈ room.gameState.turnOrder

/-- The turn invariant for every room of the table. -/
def TurnInvG (g : Game) : Prop :=
  ∀ roomId room, lookupA g.rooms roomId = some room → TurnInv room

/-- `w`, with player record `pw`, is the first entry of `ps` (insertion order)
holding the strictly greatest position: everything before it is strictly
smaller, everything overall is at most it. -/
def IsFirstMax (ps : List (String × Player)) (w : String) (pw : Player) : Prop :=
  ∃ pre suf, ps = pre ++ (w, pw) :: suf
    ∧ (∀ e ∈ pre, e.2.position < pw.position)
    ∧ (∀ e ∈ ps, e.2.position ≤ pw.position)

/-- All card values in a hand are non-negative. -/
def HandValsOk (h : List Card) : Prop := ∀ c ∈ h, 0 ≤ c.value

/-- All card values reachable from a room (draw pile and hands) are
non-negative. -/
def RoomValsOk (room : Room) : Prop :=
  (∀ c ∈ room.gameState.cardDeck, 0 ≤ c.value)
    ∧ ∀ e ∈ room.players, HandValsOk e.2.hand

/-- All card values in the game (master catalog, piles, hands) are
non-negative; per the spec, `value` is an integer magnitude. -/
def ValsOk (g : Game) : Prop :=
  (∀ c ∈ g.cards, 0 ≤ c.value) ∧ ∀ e ∈ g.rooms, RoomValsOk e.2

/-- Every player's score in every room is non-negative. -/
def ScoresOk (g : Game) : Prop :=
  ∀ e ∈ g.rooms, ∀ q ∈ e.2.players, 0 ≤ q.2.score

/- Concrete states for counterexamples and witnesses. -/

/-- A fresh engine instance over a given catalog, with the all-zeros
randomness oracle. -/
def mkGame (cards : List Card) : Game :=
  { rooms := []
    cards := cards
    R := fun _ => 0
    rngUses := 0
    reshuffleCount := 0
    publicRooms := []
    roomPasswords := []
    aiPlayers := [] }

/-- A Move card of the given magnitude. -/
def mvCard (v : Int) : Card := { ctype := "Move", effect := "", value := v }

/-- The Free Move event card (modelled from the spec's catalog: value 4). -/
def fmCard : Card := { ctype := "Event", effect := "Free Move", value := 4 }

/-- A bare player at the given position with the given hand. -/
def basicPlayer (pos : Int) (hand : List Card) : Player :=
  { username := "u"
    position := pos
    moves := 0
    score := 0
    hand := hand
    roundWins := 0
    isHost := false
    isBlocked := false }

/-- An in-round two-player room over the standard board, `A` to move. -/
def midRoom (posA : Int) (handA : List Card) (deck : List Card) : Room :=
  { gameState :=
      { board := stdBoard
        cardDeck := deck
        turn := 0
        turnOrder := ["A", "B"]
        currentTurn := some "A"
        winner := none
        timer := 30
        currentRound := 1
        roundTimer := ROUND_TIME
        roundWinners := []
        gameStarted := true }
    players := [("A", basicPlayer posA handA), ("B", basicPlayer 1 [mvCard 1])]
    timerInterval := true
    roundInterval := true
    isPublic := false
    hasStarted := true
    hostId := some "A"
    disconnectedPlayers := [] }

/- Projections for concrete checks. -/

/-- The rotation and current-turn holder of a room. -/
def roomTurnData (g : Game) (roomId : String) : Option (List String × Option String) :=
  (lookupA g.rooms roomId).map (fun r => (r.gameState.turnOrder, r.gameState.currentTurn))

/-- A player's position together with the room's board. -/
def posBoardOf (g : Game) (roomId pid : String) : Option (Int × List Int) :=
  match lookupA g.rooms roomId with
  | none => none
  | some room => (lookupA room.players pid).map (fun p => (p.position, room.gameState.board))

/-- A player's position and score. -/
def posScoreOf (g : Game) (roomId pid : String) : Option (Int × Int) :=
  match lookupA g.rooms roomId with
  | none => none
  | some room => (lookupA room.players pid).map (fun p => (p.position, p.score))

/-- A player's hand together with the room's draw pile. -/
def handDeckOf (g : Game) (roomId pid : String) : Option (List Card × List Card) :=
  match lookupA g.rooms roomId with
  | none => none
  | some room => (lookupA room.players pid).map (fun p => (p.hand, room.gameState.cardDeck))

/-- A two-card catalog room with a fresh two-card pile (C5 witness). -/
def c5WGame : Game :=
  { mkGame [mvCard 1, mvCard 2] with
      rooms := [("r", midRoom 1 [] [mvCard 1, mvCard 2])] }

/- C2: lobby disconnect of the current-turn player. -/

/-- Reachable state: create a room, join `A` then `B`, then `A` disconnects
before the game starts. -/
def c2Game : Game :=
  let g0 := (createRoom (mkGame []) "r" false none).2
  let g1 := (addPlayerToRoom g0 "r" "A" "alice" none).2
  let g2 := (addPlayerToRoom g1 "r" "B" "bob" none).2
  handleDisconnectedPlayer g2 "r" "A"

/- C3: Free Move walks off the marker set. -/

/-- A catalog of Free Move cards only (catalog contents are not in the
repository; the card shape is modelled from the spec's effect table). -/
def c3Catalog : List Card := List.replicate 40 fmCard

/-- Reachable game start: room `r` with players `A`, `B`, game started. -/
def c3Start : Game :=
  let g0 := (createRoom (mkGame c3Catalog) "r" false none).2
  let g1 := (addPlayerToRoom g0 "r" "A" "alice" none).2
  let g2 := (addPlayerToRoom g1 "r" "B" "bob" none).2
  (startGame g2 "r").2

/-- `n` alternating turns `A`, `B`, `A`, ... -/
def altAB (n : Nat) : List String :=
  (List.range n).map (fun i => if i % 2 = 0 then "A" else "B")

/-- 23 legal plays: `A` plays Free Move twelve times (interleaved with `B`),
ending at marker 1 + 12·4 = 49. -/
def c3Final : Game :=
  (altAB 23).foldl (fun g pid => (playCard g "r" pid 0 none "forward").2) c3Start

/- C6: clamped backward move. -/

/-- `A` at marker 3 holding a backward-playable Move 5; board standard. -/
def c6Game : Game :=
  { mkGame (List.replicate 5 (mvCard 1)) with
      rooms := [("r", midRoom 3 [mvCard 5] (List.replicate 5 (mvCard 1)))] }

/-- The state after `A` plays the Move 5 backward (clamped at the first
marker). -/
def c6After : Game := (playCard c6Game "r" "A" 0 none "backward").2

/- C8: the round-winning play skips the splice and the replacement draw. -/

/-- `A` at marker 44 holding `[Move 1, Free Move, Free Move]`. -/
def c8Game : Game :=
  { mkGame (List.replicate 5 (mvCard 1)) with
      rooms := [("r", midRoom 44 [mvCard 1, fmCard, fmCard] (List.replicate 5 (mvCard 1)))] }

/-- The result of `A` playing the Move 1 forward, reaching marker 45. -/
def c8Res : Except GameErr PlayOk × Game := playCard c8Game "r" "A" 0 none "forward"

/-- Everything about a player except the `isBlocked` flag (the only field the
`endTurn` rotation loop can change). -/
def coreOf (p : Player) : String × Int × Int × Int × List Card × Nat × Bool :=
  (p.username, p.position, p.moves, p.score, p.hand, p.roundWins, p.isHost)

/-- The rotation bookkeeping of a room: the fields the turn invariant is
about. -/
def turnKeyOf (r : Room) : List String × Option String :=
  (r.gameState.turnOrder, r.gameState.currentTurn)

/-- The room record `endRound` builds before branching: round timer stopped,
the winner credited with a round win and `WINNING_POINTS`, and their id
appended to `roundWinners`. -/
def roundCredit (room : Room) (wid : String) : Room :=
  { room with
      roundInterval := false
      players := updA room.players wid (fun p =>
        { p with roundWins := p.roundWins + 1, score := p.score + WINNING_POINTS })
      gameState := { room.gameState with
          roundWinners := room.gameState.roundWinners ++ [wid] } }

/-- The concrete mid-game room used to exercise `endRound`. -/
def c7Room : Room := midRoom 3 [mvCard 5] (List.replicate 5 (mvCard 1))

/-! ## Association-list lemmas -/

theorem lookupA_updA_self {α : Type} (l : List (String × α)) (k : String) (f : α → α) :
    lookupA (updA l k f) k = (lookupA l k).map f := by
  induction l with
  | nil => rfl
  | cons e rest ih =>
    obtain ⟨k', v⟩ := e
    by_cases h : k' = k <;> simp [updA, lookupA, h, ih]

theorem lookupA_updA_ne {α : Type} (l : List (String × α)) {k k' : String} (f : α → α)
    (h : k' ≠ k) : lookupA (updA l k f) k' = lookupA l k' := by
  induction l with
  | nil => rfl
  | cons e rest ih =>
    obtain ⟨k₀, v⟩ := e
    by_cases h0 : k₀ = k
    · subst h0
      simp [updA, lookupA, Ne.symm h]
    · simp only [updA, if_neg h0, lookupA]
      by_cases h1 : k₀ = k' <;> simp [h1, ih]

theorem lookupA_eraseA_ne {α : Type} (l : List (String × α)) {k k' : String}
    (h : k' ≠ k) : lookupA (eraseA l k) k' = lookupA l k' := by
  induction l with
  | nil => rfl
  | cons e rest ih =>
    obtain ⟨k₀, v⟩ := e
    by_cases h0 : k₀ = k
    · subst h0
      simp [eraseA, lookupA, Ne.symm h]
    · simp only [eraseA, if_neg h0, lookupA]
      by_cases h1 : k₀ = k' <;> simp [h1, ih]

theorem updA_length {α : Type} (l : List (String × α)) (k : String) (f : α → α) :
    (updA l k f).length = l.length := by
  induction l with
  | nil => rfl
  | cons e rest ih =>
    obtain ⟨k₀, v⟩ := e
    by_cases h : k₀ = k <;> simp [updA, h, ih]

theorem mem_updA {α : Type} (l : List (String × α)) (k : String) (f : α → α) :
    ∀ e ∈ updA l k f, e ∈ l ∨ ∃ v, (e.1, v) ∈ l ∧ e = (e.1, f v) := by
  induction l with
  | nil => intro e he; simp [updA] at he
  | cons e0 rest ih =>
    intro e he
    obtain ⟨k₀, v₀⟩ := e0
    by_cases h : k₀ = k
    · subst h
      simp [updA] at he
      rcases he with he | he
      · subst he
        exact Or.inr ⟨v₀, by simp⟩
      · exact Or.inl (List.mem_cons_of_mem _ he)
    · simp only [updA, if_neg h, List.mem_cons] at he
      rcases he with he | he
      · exact Or.inl (by simp [he])
      · rcases ih e he with h1 | ⟨v, hv, hev⟩
        · exact Or.inl (List.mem_cons_of_mem _ h1)
        · exact Or.inr ⟨v, List.mem_cons_of_mem _ hv, hev⟩

theorem mem_insertA {α : Type} (l : List (String × α)) (k : String) (v : α) :
    ∀ e ∈ insertA l k v, e ∈ l ∨ e = (k, v) := by
  induction l with
  | nil => intro e he; simpa [insertA] using he
  | cons e0 rest ih =>
    intro e he
    obtain ⟨k₀, v₀⟩ := e0
    by_cases h : k₀ = k
    · subst h
      simp [insertA] at he
      rcases he with he | he
      · exact Or.inr (by simp [he])
      · exact Or.inl (List.mem_cons_of_mem _ he)
    · simp only [insertA, if_neg h, List.mem_cons] at he
      rcases he with he | he
      · exact Or.inl (by simp [he])
      · rcases ih e he with h1 | h1
        · exact Or.inl (List.mem_cons_of_mem _ h1)
        · exact Or.inr h1

theorem mem_eraseA {α : Type} (l : List (String × α)) (k : String) :
    ∀ e ∈ eraseA l k, e ∈ l := by
  induction l with
  | nil => intro e he; simp [eraseA] at he
  | cons e0 rest ih =>
    intro e he
    obtain ⟨k₀, v₀⟩ := e0
    by_cases h : k₀ = k
    · subst h
      simp only [eraseA, if_pos] at he
      exact List.mem_cons_of_mem _ he
    · simp only [eraseA, if_neg h, List.mem_cons] at he
      rcases he with he | he
      · simp [he]
      · exact List.mem_cons_of_mem _ (ih e he)

theorem lookupA_mem {α : Type} (l : List (String × α)) (k : String) :
    ∀ v, lookupA l k = some v → (k, v) ∈ l := by
  induction l with
  | nil => intro v h; simp [lookupA] at h
  | cons e rest ih =>
    intro v h
    obtain ⟨k₀, v₀⟩ := e
    by_cases h0 : k₀ = k
    · subst h0
      simp [lookupA] at h
      simp [h]
    · simp only [lookupA, if_neg h0] at h
      exact List.mem_cons_of_mem _ (ih v h)

/-! ## Permutation facts about the Fisher–Yates shuffle -/

theorem cons_set_perm {α : Type} (xs : List α) (k : Nat) (a b : α) :
    xs.get? k = some b → List.Perm (b :: xs.set k a) (a :: xs) := by
  induction xs generalizing k with
  | nil => intro h; simp at h
  | cons x t ih =>
    intro h
    cases k with
    | zero =>
      simp only [List.get?_eq_getElem?, List.getElem?_cons_zero, Option.some.injEq] at h
      rw [← h]
      simpa [List.set] using List.Perm.swap a x t
    | succ k =>
      simp only [List.get?_eq_getElem?, List.getElem?_cons_succ] at h
      have step : List.Perm (x :: b :: t.set k a) (x :: (a :: t)) :=
        (ih k (by simpa using h)).cons x
      have h1 : List.Perm (b :: x :: t.set k a) (x :: b :: t.set k a) :=
        List.Perm.swap x b _
      have h2 : List.Perm (x :: a :: t) (a :: x :: t) := List.Perm.swap a x t
      simpa [List.set] using (h1.trans step).trans h2

theorem set_set_perm {α : Type} (l : List α) (i j : Nat) (a b : α) :
    l.get? i = some a → l.get? j = some b →
    List.Perm ((l.set i b).set j a) l := by
  induction l generalizing i j with
  | nil => intro ha _; simp at ha
  | cons x t ih =>
    intro ha hb
    cases i with
    | zero =>
      simp only [List.get?_eq_getElem?, List.getElem?_cons_zero, Option.some.injEq] at ha
      cases j with
      | zero => simp [List.set, ha]
      | succ k =>
        simp only [List.get?_eq_getElem?, List.getElem?_cons_succ] at hb
        rw [ha]
        simpa [List.set] using cons_set_perm t k a b (by simpa using hb)
    | succ m =>
      simp only [List.get?_eq_getElem?, List.getElem?_cons_succ] at ha
      cases j with
      | zero =>
        simp only [List.get?_eq_getElem?, List.getElem?_cons_zero, Option.some.injEq] at hb
        rw [hb]
        simpa [List.set] using cons_set_perm t m b a (by simpa using ha)
      | succ k =>
        simp only [List.get?_eq_getElem?, List.getElem?_cons_succ] at hb
        have h3 := ih m k (by simpa using ha) (by simpa using hb)
        simpa [List.set] using h3.cons x

theorem listSwap_perm {α : Type} (l : List α) (i j : Nat) :
    List.Perm (listSwap l i j) l := by
  unfold listSwap
  split
  · rename_i a b ha hb
    exact set_set_perm l i j a b ha hb
  · exact List.Perm.refl l

theorem fyGo_perm {α : Type} (R : Nat → Nat) (l : List α) (k i : Nat) :
    List.Perm (fyGo R l k i).1 l := by
  induction i generalizing l k with
  | zero => exact List.Perm.refl l
  | succ i ih =>
    exact (ih _ _).trans (listSwap_perm l (i + 1) (R k % (i + 2)))

/-! ## Draw-loop lemmas -/

theorem drawLoop_drawn_length (cards : List Card) (R : Nat → Nat) :
    ∀ (n : Nat) (deck : List Card) (k : Nat),
      (drawLoop cards R n deck k).drawn.length = n := by
  intro n
  induction n with
  | zero => intro deck k; rfl
  | succ n ih =>
    intro deck k
    by_cases h : deck.isEmpty <;> simp [drawLoop, h, ih]

theorem drawLoop_drawn_isSome (cards : List Card) (R : Nat → Nat) (hc : cards ≠ []) :
    ∀ (n : Nat) (deck : List Card) (k : Nat),
      ∀ oc ∈ (drawLoop cards R n deck k).drawn, oc.isSome = true := by
  intro n
  induction n with
  | zero => intro deck k oc hoc; simp [drawLoop] at hoc
  | succ n ih =>
    intro deck k oc hoc
    by_cases h : deck.isEmpty
    · simp only [drawLoop, if_pos h, List.mem_cons] at hoc
      rcases hoc with hoc | hoc
      · subst hoc
        have hne : (fyGo R cards k (cards.length - 1)).1 ≠ [] := by
          intro hcon
          have hp := fyGo_perm R cards k (cards.length - 1)
          rw [hcon] at hp
          exact hc hp.symm.eq_nil
        exact List.getLast?_isSome.mpr hne
      · exact ih _ _ _ hoc
    · simp only [drawLoop, if_neg h, List.mem_cons] at hoc
      rcases hoc with hoc | hoc
      · subst hoc
        have hne : deck ≠ [] := by simpa [List.isEmpty_iff] using h
        exact List.getLast?_isSome.mpr hne
      · exact ih _ _ _ hoc

theorem drawLoop_resets_one (cards : List Card) (R : Nat → Nat) :
    ∀ (n : Nat) (deck : List Card) (k : Nat), deck.length = n →
      (drawLoop cards R (n + 1) deck k).resets = 1 := by
  intro n
  induction n with
  | zero =>
    intro deck k hlen
    have hd : deck = [] := List.length_eq_zero.mp hlen
    subst hd
    simp [drawLoop]
  | succ n ih =>
    intro deck k hlen
    have hne : ¬ deck.isEmpty = true := by
      cases deck
      · simp at hlen
      · simp
    have hdl : deck.dropLast.length = n := by
      simp [List.length_dropLast, hlen]
    have hstep : drawLoop cards R (n + 1 + 1) deck k =
        ⟨deck.getLast? :: (drawLoop cards R (n + 1) deck.dropLast k).drawn,
          (drawLoop cards R (n + 1) deck.dropLast k).deck,
          (drawLoop cards R (n + 1) deck.dropLast k).cursor,
          (drawLoop cards R (n + 1) deck.dropLast k).resets⟩ := by
      conv_lhs => rw [drawLoop]
      rw [if_neg hne]
    rw [hstep]
    exact ih deck.dropLast k hdl

/-! ## The `endTurn` rotation loop -/

theorem blockedOf_updA_unblock_self (ps : List (String × Player)) (pid : String) :
    blockedOf (updA ps pid (fun p => { p with isBlocked := false })) pid = false := by
  unfold blockedOf
  rw [lookupA_updA_self]
  cases lookupA ps pid <;> simp

theorem blockedOf_updA_ne (ps : List (String × Player)) {pid pid' : String}
    (f : Player → Player) (h : pid' ≠ pid) :
    blockedOf (updA ps pid f) pid' = blockedOf ps pid' := by
  unfold blockedOf
  rw [lookupA_updA_ne ps f h]

theorem countBlocked_updA_unblock_lt (ps : List (String × Player)) (pid : String)
    (h : blockedOf ps pid = true) :
    countBlocked (updA ps pid (fun p => { p with isBlocked := false })) <
      countBlocked ps := by
  induction ps with
  | nil => simp [blockedOf, lookupA] at h
  | cons e rest ih =>
    obtain ⟨k₀, v₀⟩ := e
    by_cases h0 : k₀ = pid
    · subst h0
      have hb : v₀.isBlocked = true := by
        simpa [blockedOf, lookupA] using h
      simp [updA, countBlocked, List.filter, hb]
    · have h' : blockedOf rest pid = true := by
        simpa [blockedOf, lookupA, h0] using h
      have hlt := ih h'
      by_cases hb : v₀.isBlocked <;>
        simp only [updA, if_neg h0, countBlocked, List.filter, hb,
          List.length_cons] at hlt ⊢ <;>
        omega

theorem endTurnLoop_succ (order : List String) (ps : List (String × Player))
    (idx fuel : Nat) :
    endTurnLoop order ps idx (fuel + 1) =
      if blockedOf ps (order.getD idx "") then
        endTurnLoop order
          (updA ps (order.getD idx "") (fun p => { p with isBlocked := false }))
          ((idx + 1) % order.length) fuel
      else some (ps, idx) := rfl

theorem endTurnLoop_isSome (order : List String) :
    ∀ (fuel : Nat) (ps : List (String × Player)) (idx : Nat),
      countBlocked ps < fuel → (endTurnLoop order ps idx fuel).isSome = true := by
  intro fuel
  induction fuel with
  | zero => intro ps idx h; omega
  | succ fuel ih =>
    intro ps idx h
    rw [endTurnLoop_succ]
    by_cases hb : blockedOf ps (order.getD idx "")
    · rw [if_pos hb]
      have hlt := countBlocked_updA_unblock_lt ps (order.getD idx "") hb
      exact ih _ _ (by omega)
    · rw [if_neg hb]
      rfl

theorem endTurnLoop_idx_lt (order : List String) (hN : 0 < order.length) :
    ∀ (fuel : Nat) (ps : List (String × Player)) (idx : Nat), idx < order.length →
      ∀ ps2 idx2, endTurnLoop order ps idx fuel = some (ps2, idx2) →
        idx2 < order.length := by
  intro fuel
  induction fuel with
  | zero => intro ps idx _ ps2 idx2 h; exact Option.noConfusion h
  | succ fuel ih =>
    intro ps idx hidx ps2 idx2 h
    rw [endTurnLoop_succ] at h
    by_cases hb : blockedOf ps (order.getD idx "")
    · rw [if_pos hb] at h
      exact ih _ _ (Nat.mod_lt _ hN) ps2 idx2 h
    · rw [if_neg hb] at h
      obtain ⟨-, h2⟩ := Prod.mk.injEq .. ▸ Option.some.injEq .. ▸ h
      omega

theorem getD_mem {α : Type} (l : List α) (d : α) {i : Nat} (h : i < l.length) :
    l.getD i d ∈ l := by
  rw [List.getD_eq_getElem l d h]
  exact List.getElem_mem h

theorem getD_ne_of_nodup {α : Type} (l : List α) (d : α) {i j : Nat}
    (hnd : l.Nodup) (hi : i < l.length) (hj : j < l.length) (hij : i ≠ j) :
    l.getD i d ≠ l.getD j d := by
  rw [List.getD_eq_getElem l d hi, List.getD_eq_getElem l d hj]
  intro hcon
  exact hij ((hnd.getElem_inj_iff).mp hcon)

theorem unblockFrom_zero (order : List String) (ps : List (String × Player))
    (idx : Nat) : unblockFrom order ps idx 0 = ps := rfl

theorem unblockFrom_snoc (order : List String) (ps : List (String × Player))
    (idx j : Nat) :
    unblockFrom order ps idx (j + 1) =
      updA (unblockFrom order ps idx j)
        (order.getD ((idx + j) % order.length) "")
        (fun p => { p with isBlocked := false }) := by
  unfold unblockFrom
  rw [List.range_succ, List.foldl_append]
  rfl

theorem unblockFrom_cons (order : List String) (ps : List (String × Player))
    (idx j : Nat) :
    unblockFrom order ps idx (j + 1) =
      unblockFrom order
        (updA ps (order.getD (idx % order.length) "")
          (fun p => { p with isBlocked := false }))
        (idx + 1) j := by
  unfold unblockFrom
  rw [List.range_succ_eq_map, List.foldl_cons, List.foldl_map]
  have h0 : ∀ (acc : List (String × Player)), ∀ s ∈ List.range j,
      updA acc (order.getD ((idx + Nat.succ s) % order.length) "")
        (fun p => { p with isBlocked := false })
      = updA acc (order.getD ((idx + 1 + s) % order.length) "")
        (fun p => { p with isBlocked := false }) := by
    intro acc s _
    have : idx + Nat.succ s = idx + 1 + s := by omega
    rw [this]
  rw [List.foldl_ext _ _ _ h0]
  rfl

theorem unblockFrom_base_mod (order : List String) (ps : List (String × Player))
    (idx j : Nat) :
    unblockFrom order ps (idx % order.length) j = unblockFrom order ps idx j := by
  unfold unblockFrom
  apply List.foldl_ext
  intro acc s _
  rw [Nat.mod_add_mod]

theorem blockedOf_unblockFrom_ne (order : List String) {pid : String} :
    ∀ (j : Nat) (ps : List (String × Player)) (idx : Nat),
      (∀ s, s < j → order.getD ((idx + s) % order.length) "" ≠ pid) →
      blockedOf (unblockFrom order ps idx j) pid = blockedOf ps pid := by
  intro j
  induction j with
  | zero => intro ps idx _; rfl
  | succ j ih =>
    intro ps idx hne
    rw [unblockFrom_snoc]
    rw [blockedOf_updA_ne _ _ (Ne.symm (hne j (by omega)))]
    exact ih ps idx (fun s hs => hne s (by omega))

theorem add_mod_ne_self {N idx t : Nat} (hidx : idx < N) (ht0 : 0 < t)
    (htN : t < N) : (idx + t) % N ≠ idx := by
  intro hcon
  rcases Nat.lt_or_ge (idx + t) N with h | h
  · rw [Nat.mod_eq_of_lt h] at hcon
    omega
  · have h2 : (idx + t) % N = (idx + t - N) % N := Nat.mod_eq_sub_mod h
    have h3 : idx + t - N < N := by omega
    rw [h2, Nat.mod_eq_of_lt h3] at hcon
    omega

theorem endTurnLoop_run (order : List String) (hnd : order.Nodup) :
    ∀ (j : Nat) (ps : List (String × Player)) (idx fuel : Nat),
      idx < order.length → j < order.length → j < fuel →
      (∀ s, s < j →
        blockedOf ps (order.getD ((idx + s) % order.length) "") = true) →
      blockedOf (unblockFrom order ps idx j)
        (order.getD ((idx + j) % order.length) "") = false →
      endTurnLoop order ps idx fuel =
        some (unblockFrom order ps idx j, (idx + j) % order.length) := by
  intro j
  induction j with
  | zero =>
    intro ps idx fuel hidx _ hfuel _ hu
    obtain ⟨f, rfl⟩ : ∃ f, fuel = f + 1 := ⟨fuel - 1, by omega⟩
    have hidx0 : (idx + 0) % order.length = idx := by
      rw [Nat.add_zero, Nat.mod_eq_of_lt hidx]
    rw [hidx0, unblockFrom_zero] at hu
    rw [endTurnLoop_succ, if_neg (by rw [hu]; simp), unblockFrom_zero, hidx0]
  | succ j ih =>
    intro ps idx fuel hidx hj hfuel hb hu
    obtain ⟨f, rfl⟩ : ∃ f, fuel = f + 1 := ⟨fuel - 1, by omega⟩
    have hN : 0 < order.length := by omega
    have hidx0 : (idx + 0) % order.length = idx := by
      rw [Nat.add_zero, Nat.mod_eq_of_lt hidx]
    have hb0 : blockedOf ps (order.getD idx "") = true := by
      have h0 := hb 0 (by omega)
      rwa [hidx0] at h0
    rw [endTurnLoop_succ, if_pos hb0]
    have hufrom : unblockFrom order ps idx (j + 1) =
        unblockFrom order
          (updA ps (order.getD idx "") (fun p => { p with isBlocked := false }))
          ((idx + 1) % order.length) j := by
      rw [unblockFrom_cons, Nat.mod_eq_of_lt hidx, ← unblockFrom_base_mod]
    have e2 : ((idx + 1) % order.length + j) % order.length =
        (idx + (j + 1)) % order.length := by
      rw [Nat.mod_add_mod]
      congr 1
      omega
    have hmain := ih
      (updA ps (order.getD idx "") (fun p => { p with isBlocked := false }))
      ((idx + 1) % order.length) f (Nat.mod_lt _ hN) (by omega) (by omega)
      (by
        intro s hs
        have e1 : ((idx + 1) % order.length + s) % order.length =
            (idx + (s + 1)) % order.length := by
          rw [Nat.mod_add_mod]
          congr 1
          omega
        rw [e1]
        have hne2 : order.getD ((idx + (s + 1)) % order.length) "" ≠
            order.getD idx "" :=
          getD_ne_of_nodup order "" hnd (Nat.mod_lt _ hN) hidx
            (add_mod_ne_self hidx (by omega) (by omega))
        rw [blockedOf_updA_ne _ _ hne2]
        exact hb (s + 1) (by omega))
      (by
        rw [e2, ← hufrom]
        exact hu)
    rw [hmain, hufrom, e2]

theorem endTurnLoop_all_blocked (order : List String) (ps : List (String × Player))
    (idx fuel : Nat) (hnd : order.Nodup) (hidx : idx < order.length)
    (hfuel : order.length < fuel)
    (hall : ∀ pid ∈ order, blockedOf ps pid = true) :
    ∃ ps2, endTurnLoop order ps idx fuel = some (ps2, idx) := by
  have hN : 0 < order.length := by omega
  obtain ⟨f, rfl⟩ : ∃ f, fuel = f + 1 := ⟨fuel - 1, by omega⟩
  have hb0 : blockedOf ps (order.getD idx "") = true :=
    hall _ (getD_mem order "" hidx)
  rw [endTurnLoop_succ, if_pos hb0]
  have hidxne : ∀ s, s < order.length - 1 →
      order.getD (((idx + 1) % order.length + s) % order.length) "" ≠
        order.getD idx "" := by
    intro s hs
    have e1 : ((idx + 1) % order.length + s) % order.length =
        (idx + (s + 1)) % order.length := by
      rw [Nat.mod_add_mod]
      congr 1
      omega
    rw [e1]
    exact getD_ne_of_nodup order "" hnd (Nat.mod_lt _ hN) hidx
      (add_mod_ne_self hidx (by omega) (by omega))
  have efin : ((idx + 1) % order.length + (order.length - 1)) % order.length
      = idx := by
    rw [Nat.mod_add_mod]
    have e3 : idx + 1 + (order.length - 1) = idx + order.length := by omega
    rw [e3, Nat.add_mod_right, Nat.mod_eq_of_lt hidx]
  have key := endTurnLoop_run order hnd (order.length - 1)
    (updA ps (order.getD idx "") (fun p => { p with isBlocked := false }))
    ((idx + 1) % order.length) f (Nat.mod_lt _ hN) (by omega) (by omega)
    (by
      intro s hs
      rw [blockedOf_updA_ne _ _ (hidxne s hs)]
      have hmem : order.getD (((idx + 1) % order.length + s) % order.length) ""
          ∈ order := getD_mem order "" (Nat.mod_lt _ hN)
      exact hall _ hmem)
    (by
      rw [efin, blockedOf_unblockFrom_ne order (order.length - 1) _ _ hidxne]
      exact blockedOf_updA_unblock_self ps (order.getD idx ""))
  refine ⟨unblockFrom order
    (updA ps (order.getD idx "") (fun p => { p with isBlocked := false }))
    ((idx + 1) % order.length) (order.length - 1), ?_⟩
  rw [key, efin]

/-! ## C4: termination of the `endTurn` rotation loop -/

/-- C4: `endTurn` always terminates.  With the fuel `endTurn` actually
supplies (`countBlocked + |turnOrder| + 1`), the skip/blocked loop always
returns a result (each iteration clears one blocked flag, so the blocked
count strictly decreases); and when every player in the rotation is blocked
the loop stops deterministically at the starting index — the first player
visited twice — rather than looping forever. -/
theorem c4_endTurn_loop_terminates :
    ∀ (order : List String) (ps : List (String × Player)) (idx : Nat),
      order.Nodup → idx < order.length →
      (endTurnLoop order ps idx
        (countBlocked ps + order.length + 1)).isSome = true
      ∧ ((∀ pid ∈ order, blockedOf ps pid = true) →
          ∃ ps2, endTurnLoop order ps idx
            (countBlocked ps + order.length + 1) = some (ps2, idx)) := by
  intro order ps idx hnd hidx
  constructor
  · exact endTurnLoop_isSome order _ ps idx (by omega)
  · intro hall
    exact endTurnLoop_all_blocked order ps idx _ hnd hidx (by omega) hall

/-- Witness for C4: a two-player rotation with both players blocked; the loop
terminates and stops at the starting index 0. -/
theorem c4_endTurn_loop_terminates_witness :
    (["A", "B"] : List String).Nodup ∧ 0 < (["A", "B"] : List String).length
    ∧ ((endTurnLoop ["A", "B"]
          [("A", { basicPlayer 1 [] with isBlocked := true }),
           ("B", { basicPlayer 1 [] with isBlocked := true })] 0
          (countBlocked
            [("A", { basicPlayer 1 [] with isBlocked := true }),
             ("B", { basicPlayer 1 [] with isBlocked := true })] + 2 + 1)).isSome = true
        ∧ ((∀ pid ∈ (["A", "B"] : List String),
              blockedOf
                [("A", { basicPlayer 1 [] with isBlocked := true }),
                 ("B", { basicPlayer 1 [] with isBlocked := true })] pid = true) →
            ∃ ps2, endTurnLoop ["A", "B"]
              [("A", { basicPlayer 1 [] with isBlocked := true }),
               ("B", { basicPlayer 1 [] with isBlocked := true })] 0
              (countBlocked
                [("A", { basicPlayer 1 [] with isBlocked := true }),
                 ("B", { basicPlayer 1 [] with isBlocked := true })] + 2 + 1)
              = some (ps2, 0))) :=
  ⟨by decide, by decide,
    c4_endTurn_loop_terminates ["A", "B"]
      [("A", { basicPlayer 1 [] with isBlocked := true }),
       ("B", { basicPlayer 1 [] with isBlocked := true })] 0
      (by decide) (by decide)⟩

/-! ## C5: the deck never pops empty; reshuffle-on-empty is synchronous -/

/-- C5: a draw never pops from an empty pile.  With a non-empty master
catalog: every card produced by `drawCards` is present (`some`, never a pop
of an empty pile); whenever the pile empties it is replaced by a full
Fisher–Yates permutation of the entire catalog before the pop; and drawing
`M + 1` cards from a fresh pile of the catalog's size `M` performs exactly
one reshuffle. -/
theorem c5_draw_reshuffle :
    ∀ (g : Game) (roomId : String) (room : Room) (n : Nat),
      lookupA g.rooms roomId = some room → g.cards ≠ [] →
      (∀ oc ∈ (drawCards g roomId n).1, oc.isSome = true)
      ∧ List.Perm (fyGo g.R g.cards g.rngUses (g.cards.length - 1)).1 g.cards
      ∧ (n = room.gameState.cardDeck.length + 1 →
          (drawCards g roomId n).2.reshuffleCount = g.reshuffleCount + 1) := by
  intro g roomId room n hlook hc
  refine ⟨?_, fyGo_perm g.R g.cards g.rngUses (g.cards.length - 1), ?_⟩
  · intro oc hoc
    have hdrawn : (drawCards g roomId n).1 =
        (drawLoop g.cards g.R n room.gameState.cardDeck g.rngUses).drawn := by
      simp [drawCards, hlook]
    rw [hdrawn] at hoc
    exact drawLoop_drawn_isSome g.cards g.R hc n room.gameState.cardDeck g.rngUses oc hoc
  · intro hn
    have h2 : (drawCards g roomId n).2.reshuffleCount =
        g.reshuffleCount +
          (drawLoop g.cards g.R n room.gameState.cardDeck g.rngUses).resets := by
      simp [drawCards, hlook]
    rw [h2, hn, drawLoop_resets_one g.cards g.R room.gameState.cardDeck.length
      room.gameState.cardDeck g.rngUses rfl]

/-- Witness for C5: a two-card catalog, fresh two-card pile, three draws:
all three cards are present and exactly one reshuffle occurred. -/
theorem c5_draw_reshuffle_witness :
    lookupA c5WGame.rooms "r" = some (midRoom 1 [] [mvCard 1, mvCard 2])
    ∧ c5WGame.cards ≠ []
    ∧ ((∀ oc ∈ (drawCards c5WGame "r" 3).1, oc.isSome = true)
        ∧ List.Perm
            (fyGo c5WGame.R c5WGame.cards c5WGame.rngUses
              (c5WGame.cards.length - 1)).1 c5WGame.cards
        ∧ (3 = (midRoom 1 [] [mvCard 1, mvCard 2]).gameState.cardDeck.length + 1 →
            (drawCards c5WGame "r" 3).2.reshuffleCount
              = c5WGame.reshuffleCount + 1)) :=
  ⟨by decide, by decide,
    c5_draw_reshuffle c5WGame "r" (midRoom 1 [] [mvCard 1, mvCard 2]) 3
      (by decide) (by decide)⟩

/-! ## C9: idempotent game-end / timer cancellation -/

theorem updA_updA {α : Type} (l : List (String × α)) (k : String) (f h : α → α) :
    updA (updA l k f) k h = updA l k (fun v => h (f v)) := by
  induction l with
  | nil => rfl
  | cons e rest ih =>
    obtain ⟨k₀, v₀⟩ := e
    by_cases h0 : k₀ = k
    · simp [updA, h0]
    · simp [updA, h0, ih]

/-- C9: `endGame` is idempotent.  Cancelling a room's timers (and recording
the winner) twice in succession yields exactly the state after one call;
cancelling an already-cancelled timer is a no-op. -/
theorem c9_endGame_idempotent :
    ∀ (g : Game) (roomId : String),
      endGame (endGame g roomId) roomId = endGame g roomId := by
  intro g roomId
  cases hlook : lookupA g.rooms roomId with
  | none =>
    simp [endGame, hlook]
  | some room =>
    have h1 : lookupA
        (updA g.rooms roomId (fun rm =>
          { rm with
              timerInterval := false
              roundInterval := false
              gameState :=
                { rm.gameState with winner := gameWinnerFold rm.players } })) roomId
        = some { room with
            timerInterval := false
            roundInterval := false
            gameState :=
              { room.gameState with winner := gameWinnerFold room.players } } := by
      rw [lookupA_updA_self, hlook]
      rfl
    simp only [endGame, hlook, h1]
    rw [updA_updA]

/-! ## C1: a failed `playCard` leaves the room exactly as before -/

theorem shuffleBoard_error (g : Game) (roomId : String) :
    ∀ e, (shuffleBoard g roomId).1 = .error e → (shuffleBoard g roomId).2 = g := by
  intro e h
  cases hlook : lookupA g.rooms roomId with
  | none => simp [shuffleBoard, hlook]
  | some room => simp [shuffleBoard, hlook] at h

theorem handleEventCard_error (g : Game) (roomId playerId : String) (card : Card)
    (tgt : Option String) :
    ∀ e, (handleEventCard g roomId playerId card tgt).1 = .error e →
      (handleEventCard g roomId playerId card tgt).2 = g := by
  intro e h
  cases hlook : lookupA g.rooms roomId with
  | none => simp [handleEventCard, hlook]
  | some room =>
    cases hpl : lookupA room.players playerId with
    | none => simp [handleEventCard, hlook, hpl]
    | some player =>
      simp only [handleEventCard, hlook, hpl] at h ⊢
      by_cases h1 : card.effect = ""
      · simp [h1]
      · simp only [if_neg h1] at h ⊢
        by_cases h2 : card.effect = "Swap Places"
        · simp only [if_pos h2] at h ⊢
          cases tgt with
          | none => simp
          | some tid =>
            cases htl : lookupA room.players tid with
            | none => simp [htl]
            | some target =>
              simp only [htl] at h ⊢
              by_cases h3 : tid = playerId
              · simp [h3]
              · simp [h3] at h
        · simp only [if_neg h2] at h ⊢
          by_cases h4 : card.effect = "Shuffle Board"
          · simp only [if_pos h4] at h ⊢
            exact shuffleBoard_error g roomId e h
          · simp only [if_neg h4] at h ⊢
            by_cases h5 : card.effect = "Free Move"
            · simp [h5] at h
            · simp only [if_neg h5] at h ⊢
              by_cases h6 : card.effect = "Draw 1 for Everyone"
              · simp [h6] at h
              · simp only [if_neg h6] at h ⊢
                by_cases h7 : card.effect = "Bonus Round"
                · simp [h7] at h
                · simp [h7] at h

theorem handleMindPlayCard_error (g : Game) (roomId playerId : String)
    (tgt : Option String) (card : Card) :
    ∀ e, (handleMindPlayCard g roomId playerId tgt card).1 = .error e →
      (handleMindPlayCard g roomId playerId tgt card).2 = g := by
  intro e h
  cases hlook : lookupA g.rooms roomId with
  | none => simp [handleMindPlayCard, hlook]
  | some room =>
    by_cases hpl : (lookupA room.players playerId).isNone
    · simp [handleMindPlayCard, hlook, hpl]
    · simp only [handleMindPlayCard, hlook, hpl, Bool.false_eq_true, if_false] at h ⊢
      cases tgt with
      | none => simp
      | some tid =>
        cases htl : lookupA room.players tid with
        | none => simp [htl]
        | some target =>
          simp only [htl] at h ⊢
          by_cases h3 : tid = playerId
          · simp [h3]
          · simp only [if_neg h3] at h ⊢
            by_cases h4 : card.effect = ""
            · simp [h4]
            · simp only [if_neg h4] at h ⊢
              by_cases h5 : card.effect = "Discard Opponent Card"
              · simp [h5] at h
              · simp only [if_neg h5] at h ⊢
                by_cases h6 : card.effect = "Skip Opponent Turn"
                · simp [h6] at h
                · simp only [if_neg h6] at h ⊢
                  by_cases h7 : card.effect = "Steal 5 Points"
                  · simp only [if_pos h7] at h ⊢
                    by_cases h8 : target.score ≤ 0
                    · simp [h8]
                    · simp [h8] at h
                  · simp only [if_neg h7] at h ⊢
                    by_cases h9 : card.effect = "Steal A Random Card From Opponent"
                    · simp only [if_pos h9] at h ⊢
                      by_cases h10 : target.hand.length = 0
                      · simp [h10]
                      · simp [h10] at h
                    · simp [h9] at h

theorem finishPlay_fst (g : Game) (roomId playerId : String) (cardIndex : Int) :
    (finishPlay g roomId playerId cardIndex).1 = .ok .played := rfl

theorem playCard_error_state :
    ∀ (g : Game) (roomId playerId : String) (cardIndex : Int)
      (tgt : Option String) (direction : String) (e : GameErr),
      (playCard g roomId playerId cardIndex tgt direction).1 = .error e →
      (playCard g roomId playerId cardIndex tgt direction).2 = g := by
  intro g roomId playerId cardIndex tgt direction e h
  cases hlook : lookupA g.rooms roomId with
  | none => simp [playCard, hlook]
  | some room =>
    by_cases hgs : room.gameState.gameStarted = false
    · simp [playCard, hlook, hgs]
    · cases hpl : lookupA room.players playerId with
      | none => simp [playCard, hlook, hgs, hpl]
      | some player =>
        simp only [playCard, hlook, hgs, hpl, if_false, if_neg hgs] at h ⊢
        by_cases hidx : (player.hand.length : Int) ≤ cardIndex ∨ cardIndex < 0
        · simp [hidx]
        · simp only [if_neg hidx] at h ⊢
          by_cases hturn : room.gameState.currentTurn ≠ some playerId
          · simp [hturn]
          · simp only [if_neg hturn] at h ⊢
            by_cases hwin : room.gameState.winner.isSome = true
            · simp [hwin]
            · simp only [hwin, Bool.false_eq_true, if_false] at h ⊢
              cases hcard : player.hand.get? cardIndex.toNat with
              | none => simp
              | some card =>
                simp only [hcard] at h ⊢
                by_cases htgt : (card.ctype = "Mind Play"
                      ∨ (card.ctype = "Event" ∧ card.effect = "Swap Places"))
                    ∧ (tgt.bind (lookupA room.players)).isNone = true
                · simp [htgt]
                · simp only [if_neg htgt] at h ⊢
                  by_cases hmv : card.ctype = "Move"
                  · simp only [if_pos hmv] at h ⊢
                    by_cases hnp : jsGetI room.gameState.board
                        (if direction = "forward" then
                          min (BOARD_SIZE - 1)
                            (jsIndexOf room.gameState.board player.position +
                              if direction = "forward" then card.value else -card.value)
                        else max 0 (jsIndexOf room.gameState.board player.position -
                          card.value)) = BOARD_SIZE
                    · simp [hnp] at h
                    · simp [hnp, finishPlay_fst] at h
                  · simp only [if_neg hmv] at h ⊢
                    by_cases hev : card.ctype = "Event"
                    · simp only [if_pos hev] at h ⊢
                      rcases hevc : handleEventCard g roomId playerId card tgt with
                        ⟨res, g1⟩
                      cases res with
                      | error e1 =>
                        simp only [hevc] at h ⊢
                        have h2 : (handleEventCard g roomId playerId card tgt).1
                            = .error e1 := by rw [hevc]
                        have h3 := handleEventCard_error g roomId playerId card tgt e1 h2
                        rw [hevc] at h3
                        exact h3
                      | ok u =>
                        simp only [hevc, finishPlay_fst] at h
                        cases h
                    · simp only [if_neg hev] at h ⊢
                      by_cases hmp : card.ctype = "Mind Play"
                      · simp only [if_pos hmp] at h ⊢
                        rcases hmpc : handleMindPlayCard g roomId playerId tgt card with
                          ⟨res, g1⟩
                        cases res with
                        | error e1 =>
                          simp only [hmpc] at h ⊢
                          have h2 : (handleMindPlayCard g roomId playerId tgt card).1
                              = .error e1 := by rw [hmpc]
                          have h3 := handleMindPlayCard_error g roomId playerId tgt card e1 h2
                          rw [hmpc] at h3
                          exact h3
                        | ok u =>
                          simp only [hmpc, finishPlay_fst] at h
                          cases h
                      · simp only [if_neg hmp, finishPlay_fst] at h
                        cases h

/-- C1: every failing `playCard` — unknown room, game not started, unknown
player, invalid card index, not your turn, game ended, missing/invalid or
self target, no points to steal, no cards to steal — returns the game state
exactly as it was before the call: every throw precedes the first mutation. -/
theorem c1_playCard_error_keeps_state :
    ∀ (g : Game) (roomId playerId : String) (cardIndex : Int)
      (tgt : Option String) (direction : String) (e : GameErr),
      (playCard g roomId playerId cardIndex tgt direction).1 = .error e →
      (playCard g roomId playerId cardIndex tgt direction).2 = g :=
  playCard_error_state

/-- Witness for C1: calling `playCard` on an unknown room errors with
`roomNotFound` and leaves the game untouched. -/
theorem c1_playCard_error_keeps_state_witness :
    (playCard c6Game "nosuchroom" "A" 0 none "forward").1 = .error .roomNotFound
    ∧ (playCard c6Game "nosuchroom" "A" 0 none "forward").2 = c6Game :=
  ⟨rfl,
    c1_playCard_error_keeps_state c6Game "nosuchroom" "A" 0 none "forward"
      .roomNotFound rfl⟩

/-! ## State-tracking lemmas for the success path of `playCard` -/

theorem lookupA_updA_lookup {α : Type} (l : List (String × α)) (k : String)
    (f : α → α) (v : α) (h : lookupA l k = some v) :
    lookupA (updA l k f) k = some (f v) := by
  rw [lookupA_updA_self, h]
  rfl

theorem coreOf_updA_unblock (ps : List (String × Player)) (pid : String) :
    ∀ x, (lookupA (updA ps pid (fun p => { p with isBlocked := false })) x).map coreOf
      = (lookupA ps x).map coreOf := by
  intro x
  by_cases hx : x = pid
  · subst hx
    rw [lookupA_updA_self]
    cases lookupA ps x <;> simp [coreOf]
  · rw [lookupA_updA_ne ps _ hx]

theorem endTurnLoop_core (order : List String) :
    ∀ (fuel : Nat) (ps : List (String × Player)) (idx : Nat)
      (ps2 : List (String × Player)) (idx2 : Nat),
      endTurnLoop order ps idx fuel = some (ps2, idx2) →
      ∀ x, (lookupA ps2 x).map coreOf = (lookupA ps x).map coreOf := by
  intro fuel
  induction fuel with
  | zero => intro ps idx ps2 idx2 h; exact Option.noConfusion h
  | succ fuel ih =>
    intro ps idx ps2 idx2 h x
    rw [endTurnLoop_succ] at h
    by_cases hb : blockedOf ps (order.getD idx "")
    · rw [if_pos hb] at h
      have h1 := ih _ _ _ _ h x
      rw [h1, coreOf_updA_unblock]
    · rw [if_neg hb] at h
      obtain ⟨h1, -⟩ := Prod.mk.injEq .. ▸ Option.some.injEq .. ▸ h
      rw [← h1]

theorem lookupA_core_getD (order : List String) (ps : List (String × Player))
    (idx fuel : Nat) :
    ∀ x, (lookupA ((endTurnLoop order ps idx fuel).getD (ps, idx)).1 x).map coreOf
      = (lookupA ps x).map coreOf := by
  intro x
  cases hres : endTurnLoop order ps idx fuel with
  | none => simp
  | some res =>
    obtain ⟨ps2, idx2⟩ := res
    simpa using endTurnLoop_core order fuel ps idx ps2 idx2 hres x

/-- What `endTurn` does to its room: it rewrites the rotation bookkeeping and
blocked flags but leaves the board, deck, round data, winner and every
player's non-flag fields unchanged. -/
theorem endTurn_spec (g : Game) (roomId : String) (room : Room)
    (hlook : lookupA g.rooms roomId = some room) :
    ∃ room', lookupA (endTurn g roomId).rooms roomId = some room'
      ∧ room'.gameState.board = room.gameState.board
      ∧ room'.gameState.cardDeck = room.gameState.cardDeck
      ∧ room'.gameState.currentRound = room.gameState.currentRound
      ∧ room'.gameState.roundWinners = room.gameState.roundWinners
      ∧ room'.gameState.winner = room.gameState.winner
      ∧ room'.gameState.gameStarted = room.gameState.gameStarted
      ∧ (∀ x, (lookupA room'.players x).map coreOf
          = (lookupA room.players x).map coreOf) := by
  unfold endTurn
  rw [hlook]
  dsimp only
  by_cases hord : (List.filter (fun pid => (lookupA room.players pid).isSome)
      room.gameState.turnOrder).length = 0
  · rw [if_pos hord]
    exact ⟨_, lookupA_updA_lookup g.rooms roomId _ room hlook, rfl, rfl, rfl,
      rfl, rfl, rfl, fun x => rfl⟩
  · rw [if_neg hord]
    refine ⟨_, lookupA_updA_lookup g.rooms roomId _ room hlook, rfl, rfl, rfl,
      rfl, rfl, rfl, ?_⟩
    intro x
    exact lookupA_core_getD _ _ _ _ x

theorem drawLoop_one (cards : List Card) (R : Nat → Nat) (deck : List Card)
    (k : Nat) (h : deck ≠ []) :
    drawLoop cards R 1 deck k = ⟨[deck.getLast?], deck.dropLast, k, 0⟩ := by
  have h2 : ¬ deck.isEmpty = true := by simpa [List.isEmpty_iff] using h
  simp [drawLoop, h2]

theorem drawCards_one (g : Game) (roomId : String) (room : Room)
    (hlook : lookupA g.rooms roomId = some room)
    (hdeck : room.gameState.cardDeck ≠ []) :
    drawCards g roomId 1 =
      ([room.gameState.cardDeck.getLast?],
        { g with rooms := updA g.rooms roomId (fun rm =>
            { rm with gameState :=
                { rm.gameState with
                    cardDeck := room.gameState.cardDeck.dropLast } }) }) := by
  simp [drawCards, hlook, drawLoop_one g.cards g.R room.gameState.cardDeck g.rngUses hdeck]

/-- What the common tail of a successful, non-winning `playCard` does: the
played card leaves the hand, exactly one replacement is drawn from the tail
of the pile, and the turn advances; position and score are untouched by this
tail. -/
theorem finishPlay_spec (g : Game) (roomId playerId : String) (cardIndex : Int)
    (room : Room) (player : Player)
    (hlook : lookupA g.rooms roomId = some room)
    (hpl : lookupA room.players playerId = some player)
    (hdeck : room.gameState.cardDeck ≠ []) :
    ∃ c, room.gameState.cardDeck.getLast? = some c ∧
    ∃ room', lookupA (finishPlay g roomId playerId cardIndex).2.rooms roomId
        = some room'
      ∧ room'.gameState.board = room.gameState.board
      ∧ room'.gameState.cardDeck = room.gameState.cardDeck.dropLast
      ∧ room'.gameState.currentRound = room.gameState.currentRound
      ∧ room'.gameState.winner = room.gameState.winner
      ∧ ∃ p', lookupA room'.players playerId = some p'
          ∧ p'.position = player.position
          ∧ p'.score = player.score
          ∧ p'.hand = player.hand.eraseIdx cardIndex.toNat ++ [c] := by
  obtain ⟨c, hc⟩ : ∃ c, room.gameState.cardDeck.getLast? = some c :=
    Option.isSome_iff_exists.mp (List.getLast?_isSome.mpr hdeck)
  refine ⟨c, hc, ?_⟩
  have h1 : lookupA ({ g with rooms := updA g.rooms roomId (fun rm =>
      { rm with players := updA rm.players playerId (fun p =>
          { p with hand := p.hand.eraseIdx cardIndex.toNat }) }) }).rooms roomId
      = some { room with players := updA room.players playerId (fun p =>
          { p with hand := p.hand.eraseIdx cardIndex.toNat }) } :=
    lookupA_updA_lookup g.rooms roomId _ room hlook
  unfold finishPlay
  dsimp only
  rw [drawCards_one _ roomId _ h1 hdeck]
  dsimp only
  have h3 : lookupA
      ({ g with rooms := updA (updA g.rooms roomId (fun rm =>
            { rm with players := updA rm.players playerId (fun p =>
                { p with hand := p.hand.eraseIdx cardIndex.toNat }) })) roomId (fun rm =>
            { rm with gameState :=
              { rm.gameState with
                  cardDeck := room.gameState.cardDeck.dropLast } }) }).rooms roomId
      = some { room with
          players := updA room.players playerId (fun p =>
            { p with hand := p.hand.eraseIdx cardIndex.toNat })
          gameState :=
            { room.gameState with
                cardDeck := room.gameState.cardDeck.dropLast } } := by
    rw [lookupA_updA_lookup _ roomId _ _ h1]
  have h4 := lookupA_updA_lookup _ roomId
    (fun rm => { rm with players := updA rm.players playerId (fun p =>
        { p with hand := p.hand ++ [room.gameState.cardDeck.getLast?].reduceOption }) })
    _ h3
  obtain ⟨room', hr, hb, hd, hcr, hrw, hw, hgs, hcore⟩ :=
    endTurn_spec
      { g with rooms := updA (updA (updA g.rooms roomId (fun rm =>
            { rm with players := updA rm.players playerId (fun p =>
                { p with hand := p.hand.eraseIdx cardIndex.toNat }) })) roomId (fun rm =>
            { rm with gameState :=
              { rm.gameState with
                  cardDeck := room.gameState.cardDeck.dropLast } })) roomId (fun rm =>
            { rm with players := updA rm.players playerId (fun p =>
                { p with hand :=
                    p.hand ++ [room.gameState.cardDeck.getLast?].reduceOption }) }) }
      roomId
      { room with
          players := updA (updA room.players playerId (fun p =>
              { p with hand := p.hand.eraseIdx cardIndex.toNat })) playerId (fun p =>
              { p with hand :=
                  p.hand ++ [room.gameState.cardDeck.getLast?].reduceOption })
          gameState :=
            { room.gameState with
                cardDeck := room.gameState.cardDeck.dropLast } }
      h4
  refine ⟨room', hr, hb, hd, hcr, hw, ?_⟩
  have hcp := hcore playerId
  rw [lookupA_updA_lookup _ playerId _ _
    (lookupA_updA_lookup room.players playerId _ player hpl)] at hcp
  cases hp' : lookupA room'.players playerId with
  | none => rw [hp'] at hcp; simp at hcp
  | some p' =>
    rw [hp'] at hcp
    simp only [Option.map_some', Option.some.injEq, coreOf, Prod.mk.injEq] at hcp
    refine ⟨p', rfl, ?_, ?_, ?_⟩
    · exact hcp.2.1
    · exact hcp.2.2.2.1
    · rw [hcp.2.2.2.2.1, hc]
      simp [List.reduceOption]

/-- The Move branch of a successful non-winning `playCard`: the player lands
on the board marker at the clamped index, the score grows by the card's
magnitude (`|movement|`), the played card leaves the hand and one replacement
is drawn; the board itself is unchanged. -/
theorem playCard_move_spec (g : Game) (roomId playerId : String)
    (cardIndex : Int) (tgt : Option String) (direction : String)
    (room : Room) (player : Player) (card : Card)
    (hlook : lookupA g.rooms roomId = some room)
    (hgs : room.gameState.gameStarted = true)
    (hpl : lookupA room.players playerId = some player)
    (hidx : ¬((player.hand.length : Int) ≤ cardIndex ∨ cardIndex < 0))
    (hturn : room.gameState.currentTurn = some playerId)
    (hwin : room.gameState.winner = none)
    (hcard : player.hand.get? cardIndex.toNat = some card)
    (hmv : card.ctype = "Move")
    (hdeck : room.gameState.cardDeck ≠ [])
    (hnw : jsGetI room.gameState.board
        (if direction = "forward" then
          min (BOARD_SIZE - 1) (jsIndexOf room.gameState.board player.position +
            (if direction = "forward" then card.value else -card.value))
        else max 0 (jsIndexOf room.gameState.board player.position - card.value))
      ≠ BOARD_SIZE) :
    (playCard g roomId playerId cardIndex tgt direction).1 = .ok .played
    ∧ ∃ room', lookupA (playCard g roomId playerId cardIndex tgt direction).2.rooms
          roomId = some room'
      ∧ room'.gameState.board = room.gameState.board
      ∧ room'.gameState.cardDeck = room.gameState.cardDeck.dropLast
      ∧ ∃ p' c, lookupA room'.players playerId = some p'
          ∧ room.gameState.cardDeck.getLast? = some c
          ∧ p'.position = jsGetI room.gameState.board
              (if direction = "forward" then
                min (BOARD_SIZE - 1) (jsIndexOf room.gameState.board player.position +
                  (if direction = "forward" then card.value else -card.value))
              else max 0 (jsIndexOf room.gameState.board player.position - card.value))
          ∧ p'.score = player.score +
              (((if direction = "forward" then card.value else -card.value).natAbs : Int))
          ∧ p'.hand = player.hand.eraseIdx cardIndex.toNat ++ [c] := by
  have htgtA : ¬(card.ctype = "Mind Play"
      ∨ (card.ctype = "Event" ∧ card.effect = "Swap Places")) := by
    simp [hmv]
  unfold playCard
  rw [hlook]
  dsimp only
  rw [if_neg (by simp [hgs] : ¬room.gameState.gameStarted = false), hpl]
  dsimp only
  rw [if_neg hidx, if_neg (by simp [hturn] :
      ¬room.gameState.currentTurn ≠ some playerId),
    if_neg (by simp [hwin] : ¬room.gameState.winner.isSome = true), hcard]
  dsimp only
  rw [if_neg (fun hcon => htgtA hcon.1), if_pos hmv]
  rw [if_neg hnw]
  have hfs := finishPlay_spec
    { g with rooms := updA g.rooms roomId (fun rm =>
        { rm with players := updA rm.players playerId (fun p =>
            { p with
                position := jsGetI room.gameState.board
                  (if direction = "forward" then
                    min (BOARD_SIZE - 1) (jsIndexOf room.gameState.board player.position +
                      (if direction = "forward" then card.value else -card.value))
                  else max 0 (jsIndexOf room.gameState.board player.position - card.value))
                moves := p.moves +
                  (((if direction = "forward" then card.value else -card.value).natAbs : Int))
                score := p.score +
                  (((if direction = "forward" then card.value else -card.value).natAbs : Int)) }) }) }
    roomId playerId cardIndex
    { room with players := updA room.players playerId (fun p =>
        { p with
            position := jsGetI room.gameState.board
              (if direction = "forward" then
                min (BOARD_SIZE - 1) (jsIndexOf room.gameState.board player.position +
                  (if direction = "forward" then card.value else -card.value))
              else max 0 (jsIndexOf room.gameState.board player.position - card.value))
            moves := p.moves +
              (((if direction = "forward" then card.value else -card.value).natAbs : Int))
            score := p.score +
              (((if direction = "forward" then card.value else -card.value).natAbs : Int)) }) }
    { player with
        position := jsGetI room.gameState.board
          (if direction = "forward" then
            min (BOARD_SIZE - 1) (jsIndexOf room.gameState.board player.position +
              (if direction = "forward" then card.value else -card.value))
          else max 0 (jsIndexOf room.gameState.board player.position - card.value))
        moves := player.moves +
          (((if direction = "forward" then card.value else -card.value).natAbs : Int))
        score := player.score +
          (((if direction = "forward" then card.value else -card.value).natAbs : Int)) }
    (lookupA_updA_lookup g.rooms roomId _ room hlook)
    (lookupA_updA_lookup room.players playerId _ player hpl)
    hdeck
  obtain ⟨c, hc, room', hr, hb, hd, hcr, hw, p', hp', hpos, hscore, hhand⟩ := hfs
  exact ⟨rfl, room', hr, hb, hd, p', c, hp', hc, hpos, hscore, hhand⟩

/-! ## C6: Move resolution — clamping is as specified, the score is not -/

/-- Counterexample to C6 as stated: `A` at marker 3 plays Move 5 backward;
the move clamps at the first marker (distance actually moved: 2 positions)
but the score grows by the full card value 5, not by the distance moved. -/
theorem c6_counterexample :
    (playCard c6Game "r" "A" 0 none "backward").1 = .ok .played
    ∧ posScoreOf c6After "r" "A" = some (1, 5)
    ∧ jsIndexOf stdBoard 3 - jsIndexOf stdBoard 1 = 2
    ∧ (5 : Int) ≠ 2 :=
  ⟨rfl, by decide, by decide, by decide⟩

/-- C6 amended: forward Move plays advance `value` positions along the board
clamped at the last marker, backward plays retreat `value` positions clamped
at the first marker — but the score increases by the card's magnitude
`|value|` (the attempted distance), even when clamping shortens the actual
move.  (Non-winning plays; the play reaching marker 45 instead triggers
`endRound`.) -/
theorem c6_move_clamped_score :
    ∀ (g : Game) (roomId playerId : String) (cardIndex : Int)
      (tgt : Option String) (direction : String)
      (room : Room) (player : Player) (card : Card),
      lookupA g.rooms roomId = some room →
      room.gameState.gameStarted = true →
      lookupA room.players playerId = some player →
      ¬((player.hand.length : Int) ≤ cardIndex ∨ cardIndex < 0) →
      room.gameState.currentTurn = some playerId →
      room.gameState.winner = none →
      player.hand.get? cardIndex.toNat = some card →
      card.ctype = "Move" →
      room.gameState.cardDeck ≠ [] →
      jsGetI room.gameState.board
        (if direction = "forward" then
          min (BOARD_SIZE - 1) (jsIndexOf room.gameState.board player.position +
            (if direction = "forward" then card.value else -card.value))
        else max 0 (jsIndexOf room.gameState.board player.position - card.value))
        ≠ BOARD_SIZE →
      (playCard g roomId playerId cardIndex tgt direction).1 = .ok .played
      ∧ ∃ room', lookupA (playCard g roomId playerId cardIndex tgt direction).2.rooms
            roomId = some room'
        ∧ room'.gameState.board = room.gameState.board
        ∧ room'.gameState.cardDeck = room.gameState.cardDeck.dropLast
        ∧ ∃ p' c, lookupA room'.players playerId = some p'
            ∧ room.gameState.cardDeck.getLast? = some c
            ∧ p'.position = jsGetI room.gameState.board
                (if direction = "forward" then
                  min (BOARD_SIZE - 1) (jsIndexOf room.gameState.board player.position +
                    (if direction = "forward" then card.value else -card.value))
                else max 0 (jsIndexOf room.gameState.board player.position - card.value))
            ∧ p'.score = player.score +
                (((if direction = "forward" then card.value else -card.value).natAbs : Int))
            ∧ p'.hand = player.hand.eraseIdx cardIndex.toNat ++ [c] :=
  fun g roomId playerId cardIndex tgt direction room player card
    hlook hgs hpl hidx hturn hwin hcard hmv hdeck hnw =>
  playCard_move_spec g roomId playerId cardIndex tgt direction room player card
    hlook hgs hpl hidx hturn hwin hcard hmv hdeck hnw

/-- Witness for the amended C6 at the concrete backward-clamped play. -/
theorem c6_move_clamped_score_witness :
    (lookupA c6Game.rooms "r"
        = some (midRoom 3 [mvCard 5] (List.replicate 5 (mvCard 1)))
      ∧ (midRoom 3 [mvCard 5] (List.replicate 5 (mvCard 1))).gameState.gameStarted = true
      ∧ lookupA (midRoom 3 [mvCard 5] (List.replicate 5 (mvCard 1))).players "A"
        = some (basicPlayer 3 [mvCard 5])
      ∧ ¬(((basicPlayer 3 [mvCard 5]).hand.length : Int) ≤ 0 ∨ (0 : Int) < 0)
      ∧ (midRoom 3 [mvCard 5]
          (List.replicate 5 (mvCard 1))).gameState.currentTurn = some "A"
      ∧ (midRoom 3 [mvCard 5] (List.replicate 5 (mvCard 1))).gameState.winner = none
      ∧ (basicPlayer 3 [mvCard 5]).hand.get? (0 : Int).toNat = some (mvCard 5)
      ∧ (mvCard 5).ctype = "Move"
      ∧ (midRoom 3 [mvCard 5] (List.replicate 5 (mvCard 1))).gameState.cardDeck ≠ []
      ∧ jsGetI (midRoom 3 [mvCard 5] (List.replicate 5 (mvCard 1))).gameState.board
          (if "backward" = "forward" then
            min (BOARD_SIZE - 1)
              (jsIndexOf (midRoom 3 [mvCard 5]
                  (List.replicate 5 (mvCard 1))).gameState.board
                  (basicPlayer 3 [mvCard 5]).position +
                (if "backward" = "forward" then (mvCard 5).value else -(mvCard 5).value))
          else max 0 (jsIndexOf (midRoom 3 [mvCard 5]
              (List.replicate 5 (mvCard 1))).gameState.board
              (basicPlayer 3 [mvCard 5]).position - (mvCard 5).value)) ≠ BOARD_SIZE)
    ∧ ((playCard c6Game "r" "A" 0 none "backward").1 = .ok .played
      ∧ ∃ room', lookupA (playCard c6Game "r" "A" 0 none "backward").2.rooms "r"
            = some room'
        ∧ room'.gameState.board
          = (midRoom 3 [mvCard 5] (List.replicate 5 (mvCard 1))).gameState.board
        ∧ room'.gameState.cardDeck
          = (midRoom 3 [mvCard 5]
              (List.replicate 5 (mvCard 1))).gameState.cardDeck.dropLast
        ∧ ∃ p' c, lookupA room'.players "A" = some p'
            ∧ (midRoom 3 [mvCard 5]
                (List.replicate 5 (mvCard 1))).gameState.cardDeck.getLast? = some c
            ∧ p'.position = jsGetI (midRoom 3 [mvCard 5]
                (List.replicate 5 (mvCard 1))).gameState.board
                (if "backward" = "forward" then
                  min (BOARD_SIZE - 1)
                    (jsIndexOf (midRoom 3 [mvCard 5]
                        (List.replicate 5 (mvCard 1))).gameState.board
                        (basicPlayer 3 [mvCard 5]).position +
                      (if "backward" = "forward" then (mvCard 5).value
                       else -(mvCard 5).value))
                else max 0 (jsIndexOf (midRoom 3 [mvCard 5]
                    (List.replicate 5 (mvCard 1))).gameState.board
                    (basicPlayer 3 [mvCard 5]).position - (mvCard 5).value))
            ∧ p'.score = (basicPlayer 3 [mvCard 5]).score +
                (((if "backward" = "forward" then (mvCard 5).value
                   else -(mvCard 5).value).natAbs : Int))
            ∧ p'.hand = (basicPlayer 3 [mvCard 5]).hand.eraseIdx (0 : Int).toNat
                ++ [c]) :=
  ⟨⟨by decide, by decide, by decide, by decide, by decide, by decide, by decide,
    by decide, by decide, by decide⟩,
    c6_move_clamped_score c6Game "r" "A" 0 none "backward"
      (midRoom 3 [mvCard 5] (List.replicate 5 (mvCard 1)))
      (basicPlayer 3 [mvCard 5]) (mvCard 5)
      (by decide) (by decide) (by decide) (by decide) (by decide) (by decide)
      (by decide) (by decide) (by decide) (by decide)⟩

/-! ## C8: hand replenishment on successful plays -/

/-- Counterexample to C8 as stated: the winning play (A at marker 44 plays
Move 1, reaching marker 45) succeeds and triggers `endRound`, but returns
before the splice and the replacement draw — the played card is still in the
hand and the pile is untouched. -/
theorem c8_counterexample :
    c8Res.1 = .ok .wonRound
    ∧ handDeckOf c8Res.2 "r" "A"
      = some ([mvCard 1, fmCard, fmCard], List.replicate 5 (mvCard 1))
    ∧ mvCard 1 ∈ [mvCard 1, fmCard, fmCard]
    ∧ (List.replicate 5 (mvCard 1)).length = 5 :=
  ⟨rfl, by decide, by decide, by decide⟩

/-- C8 amended: on every successful Move play that does not reach marker 45,
the played card is removed from the hand and exactly one replacement is
drawn from the pile's tail, so the hand size is unchanged; the play that
reaches marker 45 triggers `endRound` and returns without removing the
played card or drawing a replacement. -/
theorem c8_nonwinning_play_replenishes_hand :
    ∀ (g : Game) (roomId playerId : String) (cardIndex : Int)
      (tgt : Option String) (direction : String)
      (room : Room) (player : Player) (card : Card),
      lookupA g.rooms roomId = some room →
      room.gameState.gameStarted = true →
      lookupA room.players playerId = some player →
      ¬((player.hand.length : Int) ≤ cardIndex ∨ cardIndex < 0) →
      room.gameState.currentTurn = some playerId →
      room.gameState.winner = none →
      player.hand.get? cardIndex.toNat = some card →
      card.ctype = "Move" →
      room.gameState.cardDeck ≠ [] →
      jsGetI room.gameState.board
        (if direction = "forward" then
          min (BOARD_SIZE - 1) (jsIndexOf room.gameState.board player.position +
            (if direction = "forward" then card.value else -card.value))
        else max 0 (jsIndexOf room.gameState.board player.position - card.value))
        ≠ BOARD_SIZE →
      (playCard g roomId playerId cardIndex tgt direction).1 = .ok .played
      ∧ ∃ room', lookupA (playCard g roomId playerId cardIndex tgt direction).2.rooms
            roomId = some room'
        ∧ room'.gameState.cardDeck = room.gameState.cardDeck.dropLast
        ∧ ∃ p' c, lookupA room'.players playerId = some p'
            ∧ room.gameState.cardDeck.getLast? = some c
            ∧ p'.hand = player.hand.eraseIdx cardIndex.toNat ++ [c]
            ∧ p'.hand.length = player.hand.length := by
  intro g roomId playerId cardIndex tgt direction room player card
    hlook hgs hpl hidx hturn hwin hcard hmv hdeck hnw
  obtain ⟨hok, room', hr, hb, hd, p', c, hp', hc, hpos, hscore, hhand⟩ :=
    playCard_move_spec g roomId playerId cardIndex tgt direction room player card
      hlook hgs hpl hidx hturn hwin hcard hmv hdeck hnw
  refine ⟨hok, room', hr, hd, p', c, hp', hc, hhand, ?_⟩
  have hlt : cardIndex.toNat < player.hand.length := by
    push_neg at hidx
    omega
  rw [hhand]
  simp [List.length_eraseIdx, hlt]
  omega

/-- Witness for the amended C8 at a concrete non-winning play. -/
theorem c8_nonwinning_play_replenishes_hand_witness :
    (lookupA c6Game.rooms "r"
        = some (midRoom 3 [mvCard 5] (List.replicate 5 (mvCard 1)))
      ∧ (midRoom 3 [mvCard 5] (List.replicate 5 (mvCard 1))).gameState.gameStarted = true
      ∧ lookupA (midRoom 3 [mvCard 5] (List.replicate 5 (mvCard 1))).players "A"
        = some (basicPlayer 3 [mvCard 5])
      ∧ ¬(((basicPlayer 3 [mvCard 5]).hand.length : Int) ≤ 0 ∨ (0 : Int) < 0)
      ∧ (midRoom 3 [mvCard 5]
          (List.replicate 5 (mvCard 1))).gameState.currentTurn = some "A"
      ∧ (midRoom 3 [mvCard 5] (List.replicate 5 (mvCard 1))).gameState.winner = none
      ∧ (basicPlayer 3 [mvCard 5]).hand.get? (0 : Int).toNat = some (mvCard 5)
      ∧ (mvCard 5).ctype = "Move"
      ∧ (midRoom 3 [mvCard 5] (List.replicate 5 (mvCard 1))).gameState.cardDeck ≠ [])
    ∧ ((playCard c6Game "r" "A" 0 none "backward").1 = .ok .played
      ∧ ∃ room', lookupA (playCard c6Game "r" "A" 0 none "backward").2.rooms "r"
            = some room'
        ∧ room'.gameState.cardDeck
          = (midRoom 3 [mvCard 5]
              (List.replicate 5 (mvCard 1))).gameState.cardDeck.dropLast
        ∧ ∃ p' c, lookupA room'.players "A" = some p'
            ∧ (midRoom 3 [mvCard 5]
                (List.replicate 5 (mvCard 1))).gameState.cardDeck.getLast? = some c
            ∧ p'.hand = (basicPlayer 3 [mvCard 5]).hand.eraseIdx (0 : Int).toNat ++ [c]
            ∧ p'.hand.length = (basicPlayer 3 [mvCard 5]).hand.length) :=
  ⟨⟨by decide, by decide, by decide, by decide, by decide, by decide, by decide,
    by decide, by decide⟩,
    c8_nonwinning_play_replenishes_hand c6Game "r" "A" 0 none "backward"
      (midRoom 3 [mvCard 5] (List.replicate 5 (mvCard 1)))
      (basicPlayer 3 [mvCard 5]) (mvCard 5)
      (by decide) (by decide) (by decide) (by decide) (by decide) (by decide)
      (by decide) (by decide) (by decide) (by decide)⟩

/-! ## C3: membership of positions in the board's marker set -/

theorem jsIndexOf_bounds {α : Type} [DecidableEq α] (l : List α) (x : α)
    (h : x ∈ l) : 0 ≤ jsIndexOf l x ∧ jsIndexOf l x < (l.length : Int) := by
  unfold jsIndexOf
  cases hf : l.findIdx? (fun y => y = x) with
  | none =>
    rw [List.findIdx?_eq_none_iff] at hf
    have := hf x h
    simp at this
  | some i =>
    obtain ⟨hi, -⟩ := List.findIdx?_eq_some_iff_getElem.mp hf
    constructor
    · show (0 : Int) ≤ (i : Int)
      exact Int.ofNat_nonneg i
    · show (i : Int) < (l.length : Int)
      exact_mod_cast hi

theorem jsIndexOf_neg_one_mem {α : Type} [DecidableEq α] (l : List α) (x : α)
    (h : jsIndexOf l x ≠ -1) : x ∈ l := by
  unfold jsIndexOf at h
  cases hf : l.findIdx? (fun y => y = x) with
  | none => rw [hf] at h; simp at h
  | some i =>
    obtain ⟨hi, hp, -⟩ := List.findIdx?_eq_some_iff_getElem.mp hf
    have hx : l[i] = x := by simpa using hp
    rw [← hx]
    exact List.getElem_mem hi

theorem jsGetI_mem (l : List Int) (i : Int) (h0 : 0 ≤ i)
    (hl : i < (l.length : Int)) : jsGetI l i ∈ l := by
  unfold jsGetI
  rw [if_neg (by omega)]
  have hlt : i.toNat < l.length := by omega
  rw [List.get?_eq_getElem?, List.getElem?_eq_getElem hlt]
  exact List.getElem_mem hlt

theorem jsGetI_zero_mem (l : List Int) (h : l ≠ []) : jsGetI l 0 ∈ l := by
  apply jsGetI_mem l 0 le_rfl
  cases l
  · exact absurd rfl h
  · simp

/-- The players after `shuffleBoard`: the board is re-permuted and every
player's position is a member of the new board sequence. -/
theorem shuffleBoard_mem (g : Game) (roomId : String) (room : Room)
    (hlook : lookupA g.rooms roomId = some room)
    (hb : room.gameState.board ≠ []) :
    ∃ room', lookupA (shuffleBoard g roomId).2.rooms roomId = some room'
      ∧ List.Perm room'.gameState.board room.gameState.board
      ∧ ∀ e ∈ room'.players, e.2.position ∈ room'.gameState.board := by
  have hperm : List.Perm (shuffleList g room.gameState.board).1
      room.gameState.board :=
    fyGo_perm g.R room.gameState.board g.rngUses
      (room.gameState.board.length - 1)
  have hb1 : (shuffleList g room.gameState.board).1 ≠ [] := by
    intro hcon
    rw [hcon] at hperm
    exact hb hperm.symm.eq_nil
  unfold shuffleBoard
  rw [hlook]
  dsimp only
  refine ⟨_, lookupA_updA_lookup g.rooms roomId _ room hlook, hperm, ?_⟩
  intro e he
  simp only [List.mem_map] at he
  obtain ⟨e0, he0, hee⟩ := he
  by_cases hidx : jsIndexOf (shuffleList g room.gameState.board).1
      e0.2.position = -1
  · rw [if_pos hidx] at hee
    rw [← hee]
    exact jsGetI_zero_mem _ hb1
  · rw [if_neg hidx] at hee
    rw [← hee]
    exact jsIndexOf_neg_one_mem _ _ hidx

/-- C3 amended: Move plays keep the acting player's position inside the
board's marker set (the clamped index stays in range), and Shuffle Board
keeps every player on a marker of the permuted board; but Free Move adds the
card value directly to the marker value and can leave the marker set
entirely (see the counterexample reaching marker 49 on a 1–45 board). -/
theorem c3_move_and_shuffle_stay_on_board :
    (∀ (g : Game) (roomId playerId : String) (cardIndex : Int)
      (tgt : Option String) (direction : String)
      (room : Room) (player : Player) (card : Card),
      lookupA g.rooms roomId = some room →
      room.gameState.gameStarted = true →
      lookupA room.players playerId = some player →
      ¬((player.hand.length : Int) ≤ cardIndex ∨ cardIndex < 0) →
      room.gameState.currentTurn = some playerId →
      room.gameState.winner = none →
      player.hand.get? cardIndex.toNat = some card →
      card.ctype = "Move" →
      room.gameState.cardDeck ≠ [] →
      jsGetI room.gameState.board
        (if direction = "forward" then
          min (BOARD_SIZE - 1) (jsIndexOf room.gameState.board player.position +
            (if direction = "forward" then card.value else -card.value))
        else max 0 (jsIndexOf room.gameState.board player.position - card.value))
        ≠ BOARD_SIZE →
      player.position ∈ room.gameState.board →
      0 ≤ card.value →
      room.gameState.board.length = 45 →
      ∃ room' p', lookupA (playCard g roomId playerId cardIndex tgt direction).2.rooms
            roomId = some room'
        ∧ room'.gameState.board = room.gameState.board
        ∧ lookupA room'.players playerId = some p'
        ∧ p'.position ∈ room'.gameState.board)
    ∧ (∀ (g : Game) (roomId : String) (room : Room),
        lookupA g.rooms roomId = some room →
        room.gameState.board ≠ [] →
        ∃ room', lookupA (shuffleBoard g roomId).2.rooms roomId = some room'
          ∧ ∀ e ∈ room'.players, e.2.position ∈ room'.gameState.board) := by
  constructor
  · intro g roomId playerId cardIndex tgt direction room player card
      hlook hgs hpl hidx hturn hwin hcard hmv hdeck hnw hmem hval hlen
    obtain ⟨hok, room', hr, hb, hd, p', c, hp', hc, hpos, hscore, hhand⟩ :=
      playCard_move_spec g roomId playerId cardIndex tgt direction room player card
        hlook hgs hpl hidx hturn hwin hcard hmv hdeck hnw
    refine ⟨room', p', hr, hb, hp', ?_⟩
    rw [hb, hpos]
    obtain ⟨hi0, hilen⟩ := jsIndexOf_bounds room.gameState.board player.position hmem
    rw [hlen] at hilen
    apply jsGetI_mem
    · by_cases hdir : direction = "forward"
      · rw [if_pos hdir, if_pos hdir]
        simp only [BOARD_SIZE]
        omega
      · rw [if_neg hdir]
        omega
    · rw [hlen]
      by_cases hdir : direction = "forward"
      · rw [if_pos hdir, if_pos hdir]
        simp only [BOARD_SIZE]
        omega
      · rw [if_neg hdir]
        omega
  · intro g roomId room hlook hb
    obtain ⟨room', hr, hperm, hmem⟩ := shuffleBoard_mem g roomId room hlook hb
    exact ⟨room', hr, hmem⟩

set_option maxRecDepth 10000 in
/-- Counterexample to C3 as stated: from a freshly created room with two
joined players, 23 legal plays of Free Move cards leave player `A` on
"marker" 49, which is not in the board sequence 1–45. -/
theorem c3_counterexample :
    posBoardOf c3Final "r" "A" = some (49, stdBoard)
    ∧ (49 : Int) ∉ stdBoard := by
  constructor
  · decide
  · decide

/-- Witness for the amended C3: a concrete forward Move play and a concrete
board shuffle, both keeping every position in the marker set. -/
theorem c3_move_and_shuffle_stay_on_board_witness :
    ((basicPlayer 3 [mvCard 5]).position
        ∈ (midRoom 3 [mvCard 5] (List.replicate 5 (mvCard 1))).gameState.board
      ∧ (0 : Int) ≤ (mvCard 5).value
      ∧ (midRoom 3 [mvCard 5] (List.replicate 5 (mvCard 1))).gameState.board.length = 45
      ∧ (∃ room' p',
          lookupA (playCard c6Game "r" "A" 0 none "forward").2.rooms "r" = some room'
          ∧ room'.gameState.board
            = (midRoom 3 [mvCard 5] (List.replicate 5 (mvCard 1))).gameState.board
          ∧ lookupA room'.players "A" = some p'
          ∧ p'.position ∈ room'.gameState.board))
    ∧ ((midRoom 3 [mvCard 5] (List.replicate 5 (mvCard 1))).gameState.board ≠ []
      ∧ ∃ room', lookupA (shuffleBoard c6Game "r").2.rooms "r" = some room'
          ∧ ∀ e ∈ room'.players, e.2.position ∈ room'.gameState.board) :=
  ⟨⟨by decide, by decide, by decide,
    c3_move_and_shuffle_stay_on_board.1 c6Game "r" "A" 0 none "forward"
      (midRoom 3 [mvCard 5] (List.replicate 5 (mvCard 1)))
      (basicPlayer 3 [mvCard 5]) (mvCard 5)
      (by decide) (by decide) (by decide) (by decide) (by decide) (by decide)
      (by decide) (by decide) (by decide) (by decide) (by decide) (by decide)
      (by decide)⟩,
   ⟨by decide,
    c3_move_and_shuffle_stay_on_board.2 c6Game "r"
      (midRoom 3 [mvCard 5] (List.replicate 5 (mvCard 1)))
      (by decide) (by decide)⟩⟩

/-! ## C2: the `currentTurn ∈ turnOrder` invariant -/

theorem TurnInv_of_turnKey_eq {r1 r2 : Room}
    (h : turnKeyOf r1 = turnKeyOf r2) (hi : TurnInv r1) : TurnInv r2 := by
  have ho : r1.gameState.turnOrder = r2.gameState.turnOrder := congrArg Prod.fst h
  have hc : r1.gameState.currentTurn = r2.gameState.currentTurn := congrArg Prod.snd h
  intro hne
  obtain ⟨pid, hp, hm⟩ := hi (by rw [ho]; exact hne)
  refine ⟨pid, by rw [← hc]; exact hp, by rw [← ho]; exact hm⟩

theorem TurnInvG_of_turnKey {g g' : Game}
    (h : ∀ x, (lookupA g'.rooms x).map turnKeyOf = (lookupA g.rooms x).map turnKeyOf)
    (hi : TurnInvG g) : TurnInvG g' := by
  intro rid room' hl
  have hx := h rid
  rw [hl] at hx
  cases hl0 : lookupA g.rooms rid with
  | none => rw [hl0] at hx; simp at hx
  | some room =>
    rw [hl0] at hx
    simp only [Option.map_some', Option.some.injEq] at hx
    exact TurnInv_of_turnKey_eq hx.symm (hi rid room hl0)

theorem map_turnKey_updA (rooms : List (String × Room)) (rid : String)
    (f : Room → Room) (hf : ∀ r, turnKeyOf (f r) = turnKeyOf r) :
    ∀ x, (lookupA (updA rooms rid f) x).map turnKeyOf
      = (lookupA rooms x).map turnKeyOf := by
  intro x
  by_cases hx : x = rid
  · subst hx
    rw [lookupA_updA_self]
    cases lookupA rooms x <;> simp [hf]
  · rw [lookupA_updA_ne rooms f hx]

theorem map_turnKey_updA_at (rooms : List (String × Room)) (rid : String)
    (f : Room → Room) (room : Room) (hlook : lookupA rooms rid = some room)
    (hf : turnKeyOf (f room) = turnKeyOf room) :
    ∀ x, (lookupA (updA rooms rid f) x).map turnKeyOf
      = (lookupA rooms x).map turnKeyOf := by
  intro x
  by_cases hx : x = rid
  · subst hx
    rw [lookupA_updA_self, hlook]
    simp [hf]
  · rw [lookupA_updA_ne rooms f hx]

theorem drawCards_turnKey (g : Game) (roomId : String) (n : Nat) :
    ∀ x, (lookupA (drawCards g roomId n).2.rooms x).map turnKeyOf
      = (lookupA g.rooms x).map turnKeyOf := by
  intro x
  unfold drawCards
  cases hlook : lookupA g.rooms roomId with
  | none => rfl
  | some room =>
    dsimp only
    apply map_turnKey_updA
    intro r
    rfl

theorem shuffleBoard_turnKey (g : Game) (roomId : String) :
    ∀ x, (lookupA (shuffleBoard g roomId).2.rooms x).map turnKeyOf
      = (lookupA g.rooms x).map turnKeyOf := by
  intro x
  unfold shuffleBoard
  cases hlook : lookupA g.rooms roomId with
  | none => rfl
  | some room =>
    dsimp only
    exact map_turnKey_updA_at _ roomId _ room hlook rfl x

theorem drawForEveryone_turnKey (g : Game) (roomId : String) :
    ∀ x, (lookupA (drawForEveryone g roomId).rooms x).map turnKeyOf
      = (lookupA g.rooms x).map turnKeyOf := by
  have hstep : ∀ (l : List String) (g0 : Game) (x : String),
      (lookupA (l.foldl (fun acc pid =>
        let dc := drawCards acc roomId 1
        { dc.2 with rooms := updA dc.2.rooms roomId (fun rm =>
            { rm with players := updA rm.players pid (fun p =>
                { p with hand := p.hand ++ dc.1.reduceOption }) }) }) g0).rooms x).map
          turnKeyOf
        = (lookupA g0.rooms x).map turnKeyOf := by
    intro l
    induction l with
    | nil => intro g0 x; rfl
    | cons pid rest ih =>
      intro g0 x
      rw [List.foldl_cons, ih]
      dsimp only
      refine Eq.trans ?_ (drawCards_turnKey g0 roomId 1 x)
      apply map_turnKey_updA
      intro r
      rfl
  intro x
  unfold drawForEveryone
  cases hlook : lookupA g.rooms roomId with
  | none => rfl
  | some room => exact hstep _ g x

theorem handleEventCard_turnKey (g : Game) (roomId playerId : String)
    (card : Card) (tgt : Option String) :
    ∀ x, (lookupA (handleEventCard g roomId playerId card tgt).2.rooms x).map
        turnKeyOf = (lookupA g.rooms x).map turnKeyOf := by
  intro x
  unfold handleEventCard
  cases hlook : lookupA g.rooms roomId with
  | none => rfl
  | some room =>
    dsimp only
    cases hpl : lookupA room.players playerId with
    | none => rfl
    | some player =>
      dsimp only
      by_cases h1 : card.effect = ""
      · simp only [if_pos h1]
      · simp only [if_neg h1]
        by_cases h2 : card.effect = "Swap Places"
        · simp only [if_pos h2]
          cases tgt with
          | none => rfl
          | some tid =>
            dsimp only
            cases htl : lookupA room.players tid with
            | none => rfl
            | some target =>
              dsimp only
              by_cases h3 : tid = playerId
              · simp only [if_pos h3]
              · simp only [if_neg h3]
                exact map_turnKey_updA g.rooms roomId _ (fun r => by rfl) x
        · simp only [if_neg h2]
          by_cases h4 : card.effect = "Shuffle Board"
          · simp only [if_pos h4]
            exact shuffleBoard_turnKey g roomId x
          · simp only [if_neg h4]
            by_cases h5 : card.effect = "Free Move"
            · simp only [if_pos h5]
              exact map_turnKey_updA g.rooms roomId _ (fun r => by rfl) x
            · simp only [if_neg h5]
              by_cases h6 : card.effect = "Draw 1 for Everyone"
              · simp only [if_pos h6]
                exact drawForEveryone_turnKey g roomId x
              · simp only [if_neg h6]
                by_cases h7 : card.effect = "Bonus Round"
                · simp only [if_pos h7]
                  exact map_turnKey_updA g.rooms roomId _ (fun r => by rfl) x
                · simp only [if_neg h7]

theorem handleMindPlayCard_turnKey (g : Game) (roomId playerId : String)
    (tgt : Option String) (card : Card) :
    ∀ x, (lookupA (handleMindPlayCard g roomId playerId tgt card).2.rooms x).map
        turnKeyOf = (lookupA g.rooms x).map turnKeyOf := by
  intro x
  unfold handleMindPlayCard
  cases hlook : lookupA g.rooms roomId with
  | none => rfl
  | some room =>
    dsimp only
    by_cases hpl : (lookupA room.players playerId).isNone
    · simp only [if_pos hpl]
    · simp only [if_neg hpl]
      cases tgt with
      | none => rfl
      | some tid =>
        dsimp only
        cases htl : lookupA room.players tid with
        | none => rfl
        | some target =>
          dsimp only
          by_cases h3 : tid = playerId
          · simp only [if_pos h3]
          · simp only [if_neg h3]
            by_cases h4 : card.effect = ""
            · simp only [if_pos h4]
            · simp only [if_neg h4]
              by_cases h5 : card.effect = "Discard Opponent Card"
              · simp only [if_pos h5]
                exact map_turnKey_updA g.rooms roomId _ (fun r => by rfl) x
              · simp only [if_neg h5]
                by_cases h6 : card.effect = "Skip Opponent Turn"
                · simp only [if_pos h6]
                  exact map_turnKey_updA g.rooms roomId _ (fun r => by rfl) x
                · simp only [if_neg h6]
                  by_cases h7 : card.effect = "Steal 5 Points"
                  · simp only [if_pos h7]
                    by_cases h8 : target.score ≤ 0
                    · simp only [if_pos h8]
                    · simp only [if_neg h8]
                      exact map_turnKey_updA g.rooms roomId _ (fun r => by rfl) x
                  · simp only [if_neg h7]
                    by_cases h9 : card.effect = "Steal A Random Card From Opponent"
                    · simp only [if_pos h9]
                      by_cases h10 : target.hand.length = 0
                      · simp only [if_pos h10]
                      · simp only [if_neg h10]
                        exact map_turnKey_updA g.rooms roomId _ (fun r => by rfl) x
                    · simp only [if_neg h9]

theorem startRound_turnKey (g : Game) (roomId : String) :
    ∀ x, (lookupA (startRound g roomId).rooms x).map turnKeyOf
      = (lookupA g.rooms x).map turnKeyOf := by
  intro x
  unfold startRound
  cases hlook : lookupA g.rooms roomId with
  | none => rfl
  | some room =>
    exact map_turnKey_updA g.rooms roomId _ (fun r => by rfl) x

theorem endGame_turnKey (g : Game) (roomId : String) :
    ∀ x, (lookupA (endGame g roomId).rooms x).map turnKeyOf
      = (lookupA g.rooms x).map turnKeyOf := by
  intro x
  unfold endGame
  cases hlook : lookupA g.rooms roomId with
  | none => rfl
  | some room =>
    exact map_turnKey_updA g.rooms roomId _ (fun r => by rfl) x

theorem endRound_turnKey (g : Game) (roomId : String) :
    ∀ x, (lookupA (endRound g roomId).rooms x).map turnKeyOf
      = (lookupA g.rooms x).map turnKeyOf := by
  intro x
  unfold endRound
  cases hlook : lookupA g.rooms roomId with
  | none => rfl
  | some room =>
    dsimp only
    cases hw : roundWinnerFold room.players with
    | none =>
      dsimp only
      by_cases hcr : ROUNDS_PER_GAME ≤ room.gameState.currentRound
      · rw [if_pos hcr]
        refine Eq.trans (endGame_turnKey _ roomId x) ?_
        exact map_turnKey_updA_at g.rooms roomId _ room hlook rfl x
      · rw [if_neg hcr]
        refine Eq.trans (startRound_turnKey _ roomId x) ?_
        refine Eq.trans (map_turnKey_updA _ roomId _ (fun r => by rfl) x) ?_
        exact map_turnKey_updA_at g.rooms roomId _ room hlook rfl x
    | some pid =>
      dsimp only
      by_cases hcr : ROUNDS_PER_GAME ≤ room.gameState.currentRound
      · rw [if_pos hcr]
        refine Eq.trans (endGame_turnKey _ roomId x) ?_
        exact map_turnKey_updA_at g.rooms roomId _ room hlook rfl x
      · rw [if_neg hcr]
        refine Eq.trans (startRound_turnKey _ roomId x) ?_
        refine Eq.trans (map_turnKey_updA _ roomId _ (fun r => by rfl) x) ?_
        exact map_turnKey_updA_at g.rooms roomId _ room hlook rfl x

theorem endTurn_invG (g : Game) (roomId : String) (hi : TurnInvG g) :
    TurnInvG (endTurn g roomId) := by
  cases hlook : lookupA g.rooms roomId with
  | none =>
    unfold endTurn
    rw [hlook]
    exact hi
  | some room =>
    intro rid room' hl
    unfold endTurn at hl
    rw [hlook] at hl
    dsimp only at hl
    by_cases hord : (List.filter (fun pid => (lookupA room.players pid).isSome)
        room.gameState.turnOrder).length = 0
    · rw [if_pos hord] at hl
      by_cases hrid : rid = roomId
      · subst hrid
        rw [lookupA_updA_self, hlook] at hl
        simp only [Option.map_some', Option.some.injEq] at hl
        subst hl
        intro hne
        exact absurd (List.length_eq_zero.mp hord) hne
      · rw [lookupA_updA_ne _ _ hrid] at hl
        exact hi rid room' hl
    · rw [if_neg hord] at hl
      by_cases hrid : rid = roomId
      · subst hrid
        rw [lookupA_updA_self, hlook] at hl
        simp only [Option.map_some', Option.some.injEq] at hl
        subst hl
        have hN : 0 < (List.filter (fun pid => (lookupA room.players pid).isSome)
            room.gameState.turnOrder).length := Nat.pos_of_ne_zero hord
        intro hne
        -- the final rotation index is in range
        have hres : (((endTurnLoop
            (List.filter (fun pid => (lookupA room.players pid).isSome)
              room.gameState.turnOrder)
            room.players
            (((match room.gameState.currentTurn with
                | none => -1
                | some pid => jsIndexOf (List.filter
                    (fun pid => (lookupA room.players pid).isSome)
                    room.gameState.turnOrder) pid) + 1).toNat
              % (List.filter (fun pid => (lookupA room.players pid).isSome)
                  room.gameState.turnOrder).length)
            (countBlocked room.players +
              (List.filter (fun pid => (lookupA room.players pid).isSome)
                room.gameState.turnOrder).length + 1)).getD
            (room.players,
              ((match room.gameState.currentTurn with
                | none => -1
                | some pid => jsIndexOf (List.filter
                    (fun pid => (lookupA room.players pid).isSome)
                    room.gameState.turnOrder) pid) + 1).toNat
              % (List.filter (fun pid => (lookupA room.players pid).isSome)
                  room.gameState.turnOrder).length)).2
            < (List.filter (fun pid => (lookupA room.players pid).isSome)
                room.gameState.turnOrder).length) := by
          cases hloop : endTurnLoop
              (List.filter (fun pid => (lookupA room.players pid).isSome)
                room.gameState.turnOrder)
              room.players
              (((match room.gameState.currentTurn with
                  | none => -1
                  | some pid => jsIndexOf (List.filter
                      (fun pid => (lookupA room.players pid).isSome)
                      room.gameState.turnOrder) pid) + 1).toNat
                % (List.filter (fun pid => (lookupA room.players pid).isSome)
                    room.gameState.turnOrder).length)
              (countBlocked room.players +
                (List.filter (fun pid => (lookupA room.players pid).isSome)
                  room.gameState.turnOrder).length + 1) with
          | none => simpa using Nat.mod_lt _ hN
          | some res2 =>
            obtain ⟨ps2, idx2⟩ := res2
            simp only [Option.getD_some]
            exact endTurnLoop_idx_lt _ hN _ _ _ (Nat.mod_lt _ hN) ps2 idx2 hloop
        exact ⟨_, rfl, getD_mem _ "" hres⟩
      · rw [lookupA_updA_ne _ _ hrid] at hl
        exact hi rid room' hl

theorem finishPlay_invG (g : Game) (roomId playerId : String) (cardIndex : Int)
    (hi : TurnInvG g) : TurnInvG (finishPlay g roomId playerId cardIndex).2 := by
  unfold finishPlay
  dsimp only
  apply endTurn_invG
  refine TurnInvG_of_turnKey (fun x => ?_) hi
  refine Eq.trans (map_turnKey_updA _ roomId _ (fun r => by rfl) x) ?_
  refine Eq.trans (drawCards_turnKey _ roomId 1 x) ?_
  exact map_turnKey_updA _ roomId _ (fun r => by rfl) x

theorem invG_of_rooms_updA (g g' : Game) (roomId : String) (f : Room → Room)
    (hr : g'.rooms = updA g.rooms roomId f)
    (hf : ∀ r, turnKeyOf (f r) = turnKeyOf r) (hi : TurnInvG g) : TurnInvG g' := by
  refine TurnInvG_of_turnKey (fun x => ?_) hi
  rw [hr]
  exact map_turnKey_updA g.rooms roomId f hf x

theorem endRound_invG (g : Game) (roomId : String) (hi : TurnInvG g) :
    TurnInvG (endRound g roomId) :=
  TurnInvG_of_turnKey (endRound_turnKey g roomId) hi

theorem playCard_invG (g : Game) (roomId playerId : String) (cardIndex : Int)
    (tgt : Option String) (direction : String) (hi : TurnInvG g) :
    TurnInvG (playCard g roomId playerId cardIndex tgt direction).2 := by
  have hfp : ∀ g2 : Game, TurnInvG g2 →
      TurnInvG (finishPlay g2 roomId playerId cardIndex).2 :=
    fun g2 h => finishPlay_invG g2 roomId playerId cardIndex h
  unfold playCard
  split
  · exact hi
  · split
    · exact hi
    · split
      · exact hi
      · split
        · exact hi
        · split
          · exact hi
          · split
            · exact hi
            · split
              · exact hi
              · split
                · exact hi
                · split
                  · -- Move card (split on direction first, then on the winning test)
                    dsimp only
                    split
                    · split
                      · refine endRound_invG _ roomId ?_
                        exact invG_of_rooms_updA g _ roomId _ rfl (fun r => by rfl) hi
                      · refine hfp _ ?_
                        exact invG_of_rooms_updA g _ roomId _ rfl (fun r => by rfl) hi
                    · split
                      · refine endRound_invG _ roomId ?_
                        exact invG_of_rooms_updA g _ roomId _ rfl (fun r => by rfl) hi
                      · refine hfp _ ?_
                        exact invG_of_rooms_updA g _ roomId _ rfl (fun r => by rfl) hi
                  · split
                    · -- Event card
                      rename Card => card
                      split
                      · rename_i e g1 heq
                        have h2 : TurnInvG (handleEventCard g roomId playerId card tgt).2 :=
                          TurnInvG_of_turnKey
                            (handleEventCard_turnKey g roomId playerId card tgt) hi
                        rw [heq] at h2
                        exact h2
                      · rename_i v g1 heq
                        have h2 : TurnInvG (handleEventCard g roomId playerId card tgt).2 :=
                          TurnInvG_of_turnKey
                            (handleEventCard_turnKey g roomId playerId card tgt) hi
                        rw [heq] at h2
                        exact hfp _ h2
                    · split
                      · -- Mind Play card
                        rename Card => card
                        split
                        · rename_i e g1 heq
                          have h2 : TurnInvG (handleMindPlayCard g roomId playerId tgt card).2 :=
                            TurnInvG_of_turnKey
                              (handleMindPlayCard_turnKey g roomId playerId tgt card) hi
                          rw [heq] at h2
                          exact h2
                        · rename_i v g1 heq
                          have h2 : TurnInvG (handleMindPlayCard g roomId playerId tgt card).2 :=
                            TurnInvG_of_turnKey
                              (handleMindPlayCard_turnKey g roomId playerId tgt card) hi
                          rw [heq] at h2
                          exact hfp _ h2
                      · exact hfp _ hi

theorem addPlayerToRoom_invG (g : Game) (roomId playerId username : String)
    (password : Option String) (hi : TurnInvG g) :
    TurnInvG (addPlayerToRoom g roomId playerId username password).2 := by
  unfold addPlayerToRoom
  cases hlook : lookupA g.rooms roomId with
  | none => exact hi
  | some room =>
    dsimp only
    by_cases hst : room.hasStarted = true
    · rw [if_pos hst]; exact hi
    · rw [if_neg hst]
      by_cases hfull : MAX_PLAYERS ≤ room.players.length
      · rw [if_pos hfull]; exact hi
      · rw [if_neg hfull]
        by_cases hpw : (lookupA g.roomPasswords roomId).isSome
            ∧ password ≠ lookupA g.roomPasswords roomId
        · rw [if_pos hpw]; exact hi
        · rw [if_neg hpw]
          dsimp only
          intro rid room' hl
          have hdc : lookupA (drawCards g roomId 3).2.rooms roomId
              = some { room with gameState := { room.gameState with
                  cardDeck := (drawLoop g.cards g.R 3
                    room.gameState.cardDeck g.rngUses).deck } } := by
            unfold drawCards
            rw [hlook]
            dsimp only
            exact lookupA_updA_lookup g.rooms roomId _ room hlook
          by_cases hrid : rid = roomId
          · subst hrid
            rw [lookupA_updA_self, hdc] at hl
            simp only [Option.map_some', Option.some.injEq] at hl
            subst hl
            intro hne
            dsimp only
            by_cases hlen : (room.gameState.turnOrder ++ [playerId]).length = 1
            · rw [if_pos hlen]
              exact ⟨playerId, rfl,
                List.mem_append_right _ (List.mem_singleton_self _)⟩
            · rw [if_neg hlen]
              have hne0 : room.gameState.turnOrder ≠ [] := by
                intro h0
                apply hlen
                rw [h0]
                rfl
              obtain ⟨q, hq, hqm⟩ := hi rid room hlook hne0
              exact ⟨q, hq, List.mem_append_left _ hqm⟩
          · rw [lookupA_updA_ne _ _ hrid] at hl
            exact TurnInvG_of_turnKey (drawCards_turnKey g roomId 3) hi rid room' hl

theorem handleDisconnectedPlayer_invG (g : Game) (roomId playerId : String)
    (room : Room) (hlook : lookupA g.rooms roomId = some room)
    (hst : room.hasStarted = true) (hi : TurnInvG g) :
    TurnInvG (handleDisconnectedPlayer g roomId playerId) := by
  unfold handleDisconnectedPlayer
  rw [hlook]
  dsimp only
  rw [if_pos hst]
  refine TurnInvG_of_turnKey (fun x => ?_) hi
  exact map_turnKey_updA _ roomId _ (fun r => by rfl) x

/-- C2: the turn invariant (whenever `turnOrder` is non-empty, `currentTurn`
names one of its members) is preserved by `addPlayerToRoom`, `playCard`,
`endTurn` and `endRound` on every game state, and by
`handleDisconnectedPlayer` provided the room's game has started.  (The
lobby-phase disconnect path does not preserve it: see the counterexample.) -/
theorem c2_turn_invariant_preservation (g : Game) (hi : TurnInvG g) :
    (∀ roomId playerId username password,
        TurnInvG (addPlayerToRoom g roomId playerId username password).2)
    ∧ (∀ roomId playerId cardIndex tgt direction,
        TurnInvG (playCard g roomId playerId cardIndex tgt direction).2)
    ∧ (∀ roomId, TurnInvG (endTurn g roomId))
    ∧ (∀ roomId, TurnInvG (endRound g roomId))
    ∧ (∀ roomId playerId room, lookupA g.rooms roomId = some room →
        room.hasStarted = true →
        TurnInvG (handleDisconnectedPlayer g roomId playerId)) :=
  ⟨fun roomId pid un pw => addPlayerToRoom_invG g roomId pid un pw hi,
   fun roomId pid ci tgt dir => playCard_invG g roomId pid ci tgt dir hi,
   fun roomId => endTurn_invG g roomId hi,
   fun roomId => endRound_invG g roomId hi,
   fun roomId pid room hlook hst =>
     handleDisconnectedPlayer_invG g roomId pid room hlook hst hi⟩

/-- C2 counterexample: in the reachable state where `A` and `B` joined room
`r` and `A` disconnected before the game started, `turnOrder` is `["B"]` but
`currentTurn` is still `some "A"`, which is not a member. -/
theorem c2_counterexample :
    roomTurnData c2Game "r" = some (["B"], some "A")
      ∧ ("A" : String) ∉ ["B"] := by
  constructor
  · rfl
  · decide

theorem c2_turn_invariant_preservation_witness :
    TurnInvG c6Game ∧ TurnInvG (playCard c6Game "r" "A" 0 none "forward").2 := by
  have hi : TurnInvG c6Game := by
    intro rid room h
    simp only [c6Game, mkGame, lookupA] at h
    by_cases hr : ("r" : String) = rid
    · rw [if_pos hr] at h
      injection h with h2
      subst h2
      intro hne
      exact ⟨"A", rfl, by decide⟩
    · rw [if_neg hr] at h
      exact absurd h (by simp)
  exact ⟨hi, (c2_turn_invariant_preservation c6Game hi).2.1 "r" "A" 0 none "forward"⟩

theorem lookupA_of_mem_nodup {α : Type} :
    ∀ (l : List (String × α)), (l.map Prod.fst).Nodup →
      ∀ (k : String) (v : α), (k, v) ∈ l → lookupA l k = some v := by
  intro l
  induction l with
  | nil => intro _ k v hm; cases hm
  | cons e t ih =>
    obtain ⟨k0, v0⟩ := e
    intro hnd k v hm
    rw [List.map_cons, List.nodup_cons] at hnd
    cases hm with
    | head => simp [lookupA]
    | tail _ hm2 =>
      have hk : k ∈ t.map Prod.fst := List.mem_map_of_mem Prod.fst hm2
      have hne : k0 ≠ k := fun h => hnd.1 (h ▸ hk)
      simp only [lookupA, if_neg hne]
      exact ih hnd.2 k v hm2

theorem updA_ne_nil {α : Type} (l : List (String × α)) (k : String) (f : α → α)
    (h : l ≠ []) : updA l k f ≠ [] := by
  cases l with
  | nil => exact absurd rfl h
  | cons e t =>
    obtain ⟨k0, v0⟩ := e
    by_cases hk : k0 = k <;> simp [updA, hk]

theorem lookupA_map_value {α β : Type} (l : List (String × α)) (f : α → β)
    (k : String) :
    lookupA (l.map (fun e => (e.1, f e.2))) k = (lookupA l k).map f := by
  induction l with
  | nil => rfl
  | cons e t ih =>
    obtain ⟨k0, v0⟩ := e
    by_cases hk : k0 = k
    · simp [lookupA, hk]
    · simp [lookupA, hk, ih]

theorem IsFirstMax_singleton (e : String × Player) : IsFirstMax [e] e.1 e.2 := by
  refine ⟨[], [], rfl, ?_, ?_⟩
  · intro x hx
    exact absurd hx (List.not_mem_nil x)
  · intro x hx
    rw [List.mem_singleton] at hx
    subst hx
    exact le_refl _

theorem IsFirstMax_snoc_keep (pre : List (String × Player)) (w : String)
    (pw : Player) (e : String × Player) (h : IsFirstMax pre w pw)
    (hle : e.2.position ≤ pw.position) : IsFirstMax (pre ++ [e]) w pw := by
  obtain ⟨p0, s0, hdec, hpre, hall⟩ := h
  refine ⟨p0, s0 ++ [e], ?_, hpre, ?_⟩
  · rw [hdec, List.append_assoc, List.cons_append]
  · intro x hx
    rw [List.mem_append] at hx
    cases hx with
    | inl hx2 => exact hall x hx2
    | inr hx2 =>
      rw [List.mem_singleton] at hx2
      subst hx2
      exact hle

theorem IsFirstMax_snoc_new (pre : List (String × Player)) (w : String)
    (pw : Player) (e : String × Player) (h : IsFirstMax pre w pw)
    (hlt : pw.position < e.2.position) : IsFirstMax (pre ++ [e]) e.1 e.2 := by
  obtain ⟨p0, s0, hdec, hpre, hall⟩ := h
  refine ⟨pre, [], rfl, ?_, ?_⟩
  · intro x hx
    exact lt_of_le_of_lt (hall x hx) hlt
  · intro x hx
    rw [List.mem_append] at hx
    cases hx with
    | inl hx2 => exact le_of_lt (lt_of_le_of_lt (hall x hx2) hlt)
    | inr hx2 =>
      rw [List.mem_singleton] at hx2
      subst hx2
      exact le_refl _

theorem roundWinnerFold_go (ps : List (String × Player))
    (hnd : (ps.map Prod.fst).Nodup) :
    ∀ (rest pre : List (String × Player)) (w : String) (pw : Player),
      ps = pre ++ rest → IsFirstMax pre w pw →
      ∃ w2 pw2, rest.foldl (fun prev e =>
          match prev with
          | none => some e.1
          | some pid =>
            if playerPosD ps pid < e.2.position then some e.1 else prev)
        (some w) = some w2 ∧ IsFirstMax ps w2 pw2 := by
  intro rest
  induction rest with
  | nil =>
    intro pre w pw hps h
    refine ⟨w, pw, rfl, ?_⟩
    rw [hps, List.append_nil]
    exact h
  | cons e rest2 ih =>
    intro pre w pw hps h
    rw [List.foldl_cons]
    dsimp only
    have hwmem : (w, pw) ∈ ps := by
      obtain ⟨p0, s0, hdec, _, _⟩ := h
      rw [hps, hdec]
      exact List.mem_append_left _
        (List.mem_append_right _ (List.mem_cons_self _ _))
    have hlook2 : playerPosD ps w = pw.position := by
      unfold playerPosD
      rw [lookupA_of_mem_nodup ps hnd w pw hwmem]
      rfl
    by_cases hlt : playerPosD ps w < e.2.position
    · rw [if_pos hlt]
      refine ih (pre ++ [e]) e.1 e.2 ?_ ?_
      · rw [hps, List.append_assoc, List.singleton_append]
      · exact IsFirstMax_snoc_new pre w pw e h (by rw [← hlook2]; exact hlt)
    · rw [if_neg hlt]
      refine ih (pre ++ [e]) w pw ?_ ?_
      · rw [hps, List.append_assoc, List.singleton_append]
      · refine IsFirstMax_snoc_keep pre w pw e h ?_
        rw [← hlook2]
        exact le_of_not_lt hlt

theorem roundWinnerFold_isFirstMax (ps : List (String × Player))
    (hnd : (ps.map Prod.fst).Nodup) (hne : ps ≠ []) :
    ∃ w pw, roundWinnerFold ps = some w ∧ IsFirstMax ps w pw := by
  obtain ⟨e, t, rfl⟩ := List.exists_cons_of_ne_nil hne
  unfold roundWinnerFold
  rw [List.foldl_cons]
  dsimp only
  obtain ⟨w2, pw2, hfold, hmax⟩ :=
    roundWinnerFold_go (e :: t) hnd t [e] e.1 e.2 rfl (IsFirstMax_singleton e)
  exact ⟨w2, pw2, hfold, hmax⟩

theorem gameWinnerFold_isSome (ps : List (String × Player)) (hne : ps ≠ []) :
    (gameWinnerFold ps).isSome = true := by
  obtain ⟨e, t, rfl⟩ := List.exists_cons_of_ne_nil hne
  unfold gameWinnerFold
  rw [List.foldl_cons]
  dsimp only
  have go : ∀ (t2 : List (String × Player)) (w : String),
      (t2.foldl (fun prev e2 =>
          match prev with
          | none => some e2.1
          | some pid =>
            if playerScoreD (e :: t) pid < e2.2.score then some e2.1 else prev)
        (some w)).isSome = true := by
    intro t2
    induction t2 with
    | nil => intro w; rfl
    | cons e2 t3 ih =>
      intro w
      rw [List.foldl_cons]
      dsimp only
      by_cases hlt : playerScoreD (e :: t) w < e2.2.score
      · rw [if_pos hlt]
        exact ih e2.1
      · rw [if_neg hlt]
        exact ih w
  exact go t e.1

theorem endGame_lookup (g : Game) (roomId : String) (room : Room)
    (hlook : lookupA g.rooms roomId = some room) :
    lookupA (endGame g roomId).rooms roomId
      = some { room with
          timerInterval := false
          roundInterval := false
          gameState :=
            { room.gameState with winner := gameWinnerFold room.players } } := by
  unfold endGame
  rw [hlook]
  dsimp only
  exact lookupA_updA_lookup g.rooms roomId _ room hlook

theorem startRound_lookup (g : Game) (roomId : String) (room : Room)
    (hlook : lookupA g.rooms roomId = some room) :
    lookupA (startRound g roomId).rooms roomId
      = some { room with
          players := room.players.map (fun e =>
            (e.1, { e.2 with
                position := jsGetI room.gameState.board 0, moves := 0 }))
          roundInterval := true
          gameState := { room.gameState with roundTimer := ROUND_TIME } } := by
  unfold startRound
  rw [hlook]
  dsimp only
  exact lookupA_updA_lookup g.rooms roomId _ room hlook

theorem lookupA_map_reset (ps : List (String × Player)) (b : Int) (k : String) :
    lookupA (ps.map (fun e =>
        (e.1, { e.2 with position := b, moves := 0 }))) k
      = (lookupA ps k).map (fun p => { p with position := b, moves := 0 }) := by
  induction ps with
  | nil => rfl
  | cons e t ih =>
    obtain ⟨k0, v0⟩ := e
    by_cases hk : k0 = k
    · simp [lookupA, hk]
    · simp [lookupA, hk, ih]

/-- C7: for a non-empty room with distinct player ids whose round counter has
not run past `ROUNDS_PER_GAME`, `endRound` picks as round winner the first
player (insertion order) with the strictly greatest position, increments that
player's `roundWins`, adds `WINNING_POINTS` to their score and appends their
id to `roundWinners`; if `currentRound` equals `ROUNDS_PER_GAME` the game ends
(`endGame`: both timers cancelled, the overall winner recorded, the round
counter untouched), otherwise `currentRound` grows by exactly one and every
player's position is reset to the board's first marker. -/
theorem c7_endRound_winner (g : Game) (roomId : String) (room : Room)
    (hlook : lookupA g.rooms roomId = some room)
    (hnd : (room.players.map Prod.fst).Nodup)
    (hne : room.players ≠ [])
    (hcr : room.gameState.currentRound ≤ ROUNDS_PER_GAME) :
    ∃ wid pw room',
      roundWinnerFold room.players = some wid
      ∧ IsFirstMax room.players wid pw
      ∧ lookupA (endRound g roomId).rooms roomId = some room'
      ∧ room'.gameState.roundWinners = room.gameState.roundWinners ++ [wid]
      ∧ (∃ pw', lookupA room'.players wid = some pw'
          ∧ pw'.roundWins = pw.roundWins + 1
          ∧ pw'.score = pw.score + WINNING_POINTS)
      ∧ (room.gameState.currentRound = ROUNDS_PER_GAME →
          room'.timerInterval = false
          ∧ room'.roundInterval = false
          ∧ room'.gameState.winner = gameWinnerFold room'.players
          ∧ room'.gameState.winner.isSome = true
          ∧ room'.gameState.currentRound = room.gameState.currentRound)
      ∧ (room.gameState.currentRound ≠ ROUNDS_PER_GAME →
          room'.gameState.currentRound = room.gameState.currentRound + 1
          ∧ room'.gameState.roundTimer = ROUND_TIME
          ∧ room'.roundInterval = true
          ∧ ∀ e ∈ room'.players,
              e.2.position = jsGetI room.gameState.board 0 ∧ e.2.moves = 0) := by
  obtain ⟨wid, pw, hw, hmax⟩ := roundWinnerFold_isFirstMax room.players hnd hne
  have hwm : (wid, pw) ∈ room.players := by
    obtain ⟨p0, s0, hdec, _, _⟩ := hmax
    rw [hdec]
    exact List.mem_append_right _ (List.mem_cons_self _ _)
  have hplook : lookupA room.players wid = some pw :=
    lookupA_of_mem_nodup _ hnd _ _ hwm
  refine ⟨wid, pw, ?_⟩
  unfold endRound
  rw [hlook]
  dsimp only
  rw [hw]
  dsimp only
  by_cases heq : room.gameState.currentRound = ROUNDS_PER_GAME
  · rw [if_pos (le_of_eq heq.symm)]
    refine ⟨{ room with
        timerInterval := false
        roundInterval := false
        players := updA room.players wid (fun p =>
          { p with roundWins := p.roundWins + 1, score := p.score + WINNING_POINTS })
        gameState := { room.gameState with
          roundWinners := room.gameState.roundWinners ++ [wid]
          winner := gameWinnerFold (updA room.players wid (fun p =>
            { p with roundWins := p.roundWins + 1, score := p.score + WINNING_POINTS })) } },
      rfl, hmax, ?_, ?_, ?_, ?_, ?_⟩
    · exact endGame_lookup
        { g with rooms := updA g.rooms roomId (fun _ => roundCredit room wid) }
        roomId (roundCredit room wid)
        (lookupA_updA_lookup g.rooms roomId _ room hlook)
    · rfl
    · refine ⟨{ pw with
          roundWins := pw.roundWins + 1
          score := pw.score + WINNING_POINTS }, ?_, ?_, ?_⟩
      · exact lookupA_updA_lookup room.players wid _ pw hplook
      · rfl
      · rfl
    · intro _
      refine ⟨rfl, rfl, rfl, ?_, rfl⟩
      exact gameWinnerFold_isSome _ (updA_ne_nil room.players wid _ hne)
    · intro hcon
      exact absurd heq hcon
  · rw [if_neg (not_le.mpr (lt_of_le_of_ne hcr heq))]
    refine ⟨{ room with
        roundInterval := true
        players := (updA room.players wid (fun p =>
          { p with roundWins := p.roundWins + 1, score := p.score + WINNING_POINTS })).map (fun e =>
            (e.1, { e.2 with position := jsGetI room.gameState.board 0, moves := 0 }))
        gameState := { room.gameState with
          roundWinners := room.gameState.roundWinners ++ [wid]
          currentRound := room.gameState.currentRound + 1
          roundTimer := ROUND_TIME } },
      rfl, hmax, ?_, ?_, ?_, ?_, ?_⟩
    · exact startRound_lookup
        { g with rooms := (updA (updA g.rooms roomId (fun _ => roundCredit room wid))
            roomId (fun rm => { rm with gameState :=
              { rm.gameState with currentRound := rm.gameState.currentRound + 1 } })) }
        roomId
        { roundCredit room wid with gameState :=
            { (roundCredit room wid).gameState with
                currentRound := (roundCredit room wid).gameState.currentRound + 1 } }
        (lookupA_updA_lookup _ roomId _ (roundCredit room wid)
          (lookupA_updA_lookup g.rooms roomId _ room hlook))
    · rfl
    · refine ⟨{ pw with
          position := jsGetI room.gameState.board 0
          moves := 0
          roundWins := pw.roundWins + 1
          score := pw.score + WINNING_POINTS }, ?_, ?_, ?_⟩
      · dsimp only
        rw [lookupA_map_reset, lookupA_updA_lookup room.players wid _ pw hplook]
        rfl
      · rfl
      · rfl
    · intro hcon
      exact absurd hcon heq
    · intro _
      refine ⟨rfl, rfl, rfl, ?_⟩
      intro e he
      simp only [List.mem_map] at he
      obtain ⟨x, hx, rfl⟩ := he
      exact ⟨rfl, rfl⟩

theorem c7_endRound_winner_witness :
    lookupA c6Game.rooms "r" = some c7Room
    ∧ (c7Room.players.map Prod.fst).Nodup
    ∧ c7Room.players ≠ []
    ∧ c7Room.gameState.currentRound ≤ ROUNDS_PER_GAME
    ∧ ∃ wid pw room',
        roundWinnerFold c7Room.players = some wid
        ∧ IsFirstMax c7Room.players wid pw
        ∧ lookupA (endRound c6Game "r").rooms "r" = some room'
        ∧ room'.gameState.roundWinners = c7Room.gameState.roundWinners ++ [wid]
        ∧ (∃ pw', lookupA room'.players wid = some pw'
            ∧ pw'.roundWins = pw.roundWins + 1
            ∧ pw'.score = pw.score + WINNING_POINTS)
        ∧ (c7Room.gameState.currentRound = ROUNDS_PER_GAME →
            room'.timerInterval = false
            ∧ room'.roundInterval = false
            ∧ room'.gameState.winner = gameWinnerFold room'.players
            ∧ room'.gameState.winner.isSome = true
            ∧ room'.gameState.currentRound = c7Room.gameState.currentRound)
        ∧ (c7Room.gameState.currentRound ≠ ROUNDS_PER_GAME →
            room'.gameState.currentRound = c7Room.gameState.currentRound + 1
            ∧ room'.gameState.roundTimer = ROUND_TIME
            ∧ room'.roundInterval = true
            ∧ ∀ e ∈ room'.players,
                e.2.position = jsGetI c7Room.gameState.board 0 ∧ e.2.moves = 0) :=
  ⟨rfl, by decide, List.cons_ne_nil _ _, by decide,
    c7_endRound_winner c6Game "r" c7Room rfl (by decide)
      (List.cons_ne_nil _ _) (by decide)⟩

theorem mem_updA_first {α : Type} :
    ∀ (ps : List (String × α)) (k : String) (f : α → α) (v : α),
      lookupA ps k = some v →
      ∀ e ∈ updA ps k f, e ∈ ps ∨ e = (k, f v) := by
  intro ps
  induction ps with
  | nil => intro k f v hl; simp [lookupA] at hl
  | cons e0 t ih =>
    obtain ⟨k0, v0⟩ := e0
    intro k f v hl e he
    by_cases hk : k0 = k
    · subst hk
      simp [lookupA] at hl
      subst hl
      simp [updA] at he
      rcases he with he2 | he2
      · exact Or.inr he2
      · exact Or.inl (List.mem_cons_of_mem _ he2)
    · simp only [lookupA, if_neg hk] at hl
      simp only [updA, if_neg hk] at he
      rcases List.mem_cons.mp he with he2 | he2
      · exact Or.inl (he2 ▸ List.mem_cons_self _ _)
      · rcases ih k f v hl e he2 with h1 | h1
        · exact Or.inl (List.mem_cons_of_mem _ h1)
        · exact Or.inr h1

theorem ScoresOk_updA_any (g g' : Game) (roomId : String) (f : Room → Room)
    (hr : g'.rooms = updA g.rooms roomId f)
    (hf : ∀ rm, (∀ q ∈ rm.players, 0 ≤ q.2.score) →
      ∀ q ∈ (f rm).players, 0 ≤ q.2.score)
    (hs : ScoresOk g) : ScoresOk g' := by
  intro e he
  rw [hr] at he
  rcases mem_updA g.rooms roomId f e he with h1 | ⟨v, hv, hev⟩
  · exact hs e h1
  · obtain ⟨ek, ev⟩ := e
    simp only [Prod.mk.injEq, true_and] at hev
    intro q hq
    rw [hev] at hq
    exact hf v (hs (ek, v) hv) q hq

theorem ScoresOk_updA_at (g g' : Game) (roomId : String) (f : Room → Room)
    (room : Room) (hlook : lookupA g.rooms roomId = some room)
    (hr : g'.rooms = updA g.rooms roomId f)
    (hf : (∀ q ∈ room.players, 0 ≤ q.2.score) →
      ∀ q ∈ (f room).players, 0 ≤ q.2.score)
    (hs : ScoresOk g) : ScoresOk g' := by
  intro e he
  rw [hr] at he
  rcases mem_updA_first g.rooms roomId f room hlook e he with h1 | h1
  · exact hs e h1
  · rw [h1]
    exact hf (hs (roomId, room) (lookupA_mem _ _ _ hlook))

theorem players_updA_scores (ps : List (String × Player)) (pid : String)
    (f : Player → Player) (hf : ∀ p, 0 ≤ p.score → 0 ≤ (f p).score)
    (hs : ∀ q ∈ ps, 0 ≤ q.2.score) : ∀ q ∈ updA ps pid f, 0 ≤ q.2.score := by
  intro q hq
  rcases mem_updA ps pid f q hq with h1 | ⟨v, hv, hev⟩
  · exact hs q h1
  · obtain ⟨qk, qv⟩ := q
    simp only [Prod.mk.injEq, true_and] at hev
    rw [hev]
    exact hf v (hs (qk, v) hv)

theorem players_updA_scores_at (ps : List (String × Player)) (pid : String)
    (f : Player → Player) (v : Player) (hl : lookupA ps pid = some v)
    (hfv : 0 ≤ (f v).score)
    (hs : ∀ q ∈ ps, 0 ≤ q.2.score) : ∀ q ∈ updA ps pid f, 0 ≤ q.2.score := by
  intro q hq
  rcases mem_updA_first ps pid f v hl q hq with h1 | h1
  · exact hs q h1
  · rw [h1]
    exact hfv

theorem drawCards_scores (g : Game) (roomId : String) (n : Nat)
    (hs : ScoresOk g) : ScoresOk (drawCards g roomId n).2 := by
  unfold drawCards
  cases hlook : lookupA g.rooms roomId with
  | none => exact hs
  | some room =>
    dsimp only
    exact ScoresOk_updA_any g _ roomId _ rfl (fun rm h => by exact h) hs

theorem endTurnLoop_scores (order : List String) :
    ∀ (fuel : Nat) (ps : List (String × Player)) (idx : Nat),
      (∀ q ∈ ps, 0 ≤ q.2.score) →
      ∀ ps2 idx2, endTurnLoop order ps idx fuel = some (ps2, idx2) →
        ∀ q ∈ ps2, 0 ≤ q.2.score := by
  intro fuel
  induction fuel with
  | zero =>
    intro ps idx h ps2 idx2 he
    exact absurd he (by simp [endTurnLoop])
  | succ n ih =>
    intro ps idx h ps2 idx2 he
    rw [endTurnLoop_succ] at he
    by_cases hb : blockedOf ps (order.getD idx "")
    · rw [if_pos hb] at he
      refine ih _ _ ?_ ps2 idx2 he
      exact players_updA_scores ps _ _ (fun p hp => by exact hp) h
    · rw [if_neg hb] at he
      simp only [Option.some.injEq, Prod.mk.injEq] at he
      rw [← he.1]
      exact h

theorem getD_loop_scores (order : List String) (ps : List (String × Player))
    (idx fuel : Nat) (h : ∀ q ∈ ps, 0 ≤ q.2.score) :
    ∀ q ∈ ((endTurnLoop order ps idx fuel).getD (ps, idx)).1, 0 ≤ q.2.score := by
  cases hloop : endTurnLoop order ps idx fuel with
  | none => simpa using h
  | some res =>
    obtain ⟨ps2, idx2⟩ := res
    simpa using endTurnLoop_scores order fuel ps idx h ps2 idx2 hloop

theorem endTurn_scores (g : Game) (roomId : String) (hs : ScoresOk g) :
    ScoresOk (endTurn g roomId) := by
  unfold endTurn
  cases hlook : lookupA g.rooms roomId with
  | none => exact hs
  | some room =>
    dsimp only
    by_cases hord : (List.filter (fun pid => (lookupA room.players pid).isSome)
        room.gameState.turnOrder).length = 0
    · rw [if_pos hord]
      exact ScoresOk_updA_at g _ roomId _ room hlook rfl (fun h => h) hs
    · rw [if_neg hord]
      refine ScoresOk_updA_at g _ roomId _ room hlook rfl (fun h => ?_) hs
      exact getD_loop_scores _ _ _ _ h

theorem scores_rooms_updA_any (rooms : List (String × Room)) (roomId : String)
    (f : Room → Room)
    (hf : ∀ rm, (∀ q ∈ rm.players, 0 ≤ q.2.score) →
      ∀ q ∈ (f rm).players, 0 ≤ q.2.score)
    (hs : ∀ e ∈ rooms, ∀ q ∈ e.2.players, 0 ≤ q.2.score) :
    ∀ e ∈ updA rooms roomId f, ∀ q ∈ e.2.players, 0 ≤ q.2.score := by
  intro e he
  rcases mem_updA rooms roomId f e he with h1 | ⟨v, hv, hev⟩
  · exact hs e h1
  · obtain ⟨ek, ev⟩ := e
    simp only [Prod.mk.injEq, true_and] at hev
    intro q hq
    rw [hev] at hq
    exact hf v (hs (ek, v) hv) q hq

theorem scores_rooms_updA_at (rooms : List (String × Room)) (roomId : String)
    (f : Room → Room) (room : Room)
    (hlook : lookupA rooms roomId = some room)
    (hf : (∀ q ∈ room.players, 0 ≤ q.2.score) →
      ∀ q ∈ (f room).players, 0 ≤ q.2.score)
    (hs : ∀ e ∈ rooms, ∀ q ∈ e.2.players, 0 ≤ q.2.score) :
    ∀ e ∈ updA rooms roomId f, ∀ q ∈ e.2.players, 0 ≤ q.2.score := by
  intro e he
  rcases mem_updA_first rooms roomId f room hlook e he with h1 | h1
  · exact hs e h1
  · rw [h1]
    exact hf (hs (roomId, room) (lookupA_mem _ _ _ hlook))

theorem shuffleBoard_scores (g : Game) (roomId : String) (hs : ScoresOk g) :
    ScoresOk (shuffleBoard g roomId).2 := by
  unfold shuffleBoard
  cases hlook : lookupA g.rooms roomId with
  | none => exact hs
  | some room =>
    dsimp only
    intro e he
    refine scores_rooms_updA_at g.rooms roomId _ room hlook (fun h => ?_) hs e he
    intro q hq
    dsimp only at hq
    simp only [List.mem_map] at hq
    obtain ⟨x, hx, rfl⟩ := hq
    split
    · exact h x hx
    · exact h x hx

theorem drawForEveryone_scores (g : Game) (roomId : String) (hs : ScoresOk g) :
    ScoresOk (drawForEveryone g roomId) := by
  unfold drawForEveryone
  cases hlook : lookupA g.rooms roomId with
  | none => exact hs
  | some room =>
    dsimp only
    have go : ∀ (pids : List String) (acc : Game), ScoresOk acc →
        ScoresOk (pids.foldl (fun acc pid =>
          let dc := drawCards acc roomId 1
          { dc.2 with
              rooms := updA dc.2.rooms roomId (fun rm =>
                { rm with players := updA rm.players pid (fun p =>
                    { p with hand := p.hand ++ dc.1.reduceOption }) }) }) acc) := by
      intro pids
      induction pids with
      | nil => intro acc ha; exact ha
      | cons pid rest ih =>
        intro acc ha
        rw [List.foldl_cons]
        refine ih _ ?_
        intro e he
        refine scores_rooms_updA_any _ roomId _ (fun rm h => ?_) ?_ e he
        · exact players_updA_scores rm.players pid _ (fun p hp => by exact hp) h
        · exact drawCards_scores acc roomId 1 ha
    exact go _ g hs

theorem handleEventCard_scores (g : Game) (roomId playerId : String)
    (card : Card) (tgt : Option String) (hcv : 0 ≤ card.value)
    (hs : ScoresOk g) : ScoresOk (handleEventCard g roomId playerId card tgt).2 := by
  unfold handleEventCard
  cases hlook : lookupA g.rooms roomId with
  | none => exact hs
  | some room =>
    dsimp only
    cases hpl : lookupA room.players playerId with
    | none => exact hs
    | some player =>
      dsimp only
      by_cases h1 : card.effect = ""
      · rw [if_pos h1]; exact hs
      · rw [if_neg h1]
        by_cases h2 : card.effect = "Swap Places"
        · rw [if_pos h2]
          cases tgt with
          | none => exact hs
          | some tid =>
            dsimp only
            cases htl : lookupA room.players tid with
            | none => exact hs
            | some target =>
              dsimp only
              by_cases h3 : tid = playerId
              · rw [if_pos h3]; exact hs
              · rw [if_neg h3]
                intro e he
                refine scores_rooms_updA_any _ roomId _ (fun rm h => ?_) hs e he
                refine players_updA_scores _ tid _ (fun p hp => by exact hp) ?_
                exact players_updA_scores rm.players playerId _
                  (fun p hp => by exact hp) h
        · rw [if_neg h2]
          by_cases h4 : card.effect = "Shuffle Board"
          · rw [if_pos h4]
            exact shuffleBoard_scores g roomId hs
          · rw [if_neg h4]
            by_cases h5 : card.effect = "Free Move"
            · rw [if_pos h5]
              intro e he
              refine scores_rooms_updA_any _ roomId _ (fun rm h => ?_) hs e he
              exact players_updA_scores rm.players playerId _
                (fun p hp => by exact add_nonneg hp hcv) h
            · rw [if_neg h5]
              by_cases h6 : card.effect = "Draw 1 for Everyone"
              · rw [if_pos h6]
                exact drawForEveryone_scores g roomId hs
              · rw [if_neg h6]
                by_cases h7 : card.effect = "Bonus Round"
                · rw [if_pos h7]
                  intro e he
                  refine scores_rooms_updA_any _ roomId _ (fun rm h => ?_) hs e he
                  exact players_updA_scores rm.players playerId _
                    (fun p hp => by exact add_nonneg hp (by decide)) h
                · rw [if_neg h7]
                  exact hs

theorem handleMindPlayCard_scores (g : Game) (roomId playerId : String)
    (tgt : Option String) (card : Card) (hcv : 0 ≤ card.value)
    (hs : ScoresOk g) : ScoresOk (handleMindPlayCard g roomId playerId tgt card).2 := by
  unfold handleMindPlayCard
  cases hlook : lookupA g.rooms roomId with
  | none => exact hs
  | some room =>
    dsimp only
    by_cases h0 : (lookupA room.players playerId).isNone
    · rw [if_pos h0]; exact hs
    · rw [if_neg h0]
      cases tgt with
      | none => exact hs
      | some tid =>
        dsimp only
        cases htl : lookupA room.players tid with
        | none => exact hs
        | some target =>
          dsimp only
          by_cases h3 : tid = playerId
          · rw [if_pos h3]; exact hs
          · rw [if_neg h3]
            by_cases h4 : card.effect = ""
            · rw [if_pos h4]; exact hs
            · rw [if_neg h4]
              by_cases h5 : card.effect = "Discard Opponent Card"
              · rw [if_pos h5]
                intro e he
                refine scores_rooms_updA_any _ roomId _ (fun rm h => ?_) hs e he
                exact players_updA_scores rm.players tid _ (fun p hp => by exact hp) h
              · rw [if_neg h5]
                by_cases h6 : card.effect = "Skip Opponent Turn"
                · rw [if_pos h6]
                  intro e he
                  refine scores_rooms_updA_any _ roomId _ (fun rm h => ?_) hs e he
                  exact players_updA_scores rm.players tid _ (fun p hp => by exact hp) h
                · rw [if_neg h6]
                  by_cases h7 : card.effect = "Steal 5 Points"
                  · rw [if_pos h7]
                    by_cases h8 : target.score ≤ 0
                    · rw [if_pos h8]; exact hs
                    · rw [if_neg h8]
                      dsimp only
                      have hst : (0 : Int) ≤ min target.score card.value :=
                        le_min (le_of_lt (not_le.mp h8)) hcv
                      intro e he
                      refine scores_rooms_updA_at g.rooms roomId _ room hlook
                        (fun h => ?_) hs e he
                      refine players_updA_scores _ playerId _
                        (fun p hp => by exact add_nonneg hp hst) ?_
                      refine players_updA_scores_at room.players tid _ target htl ?_ h
                      exact sub_nonneg.mpr (min_le_left _ _)
                  · rw [if_neg h7]
                    by_cases h9 : card.effect = "Steal A Random Card From Opponent"
                    · rw [if_pos h9]
                      by_cases h10 : target.hand.length = 0
                      · rw [if_pos h10]; exact hs
                      · rw [if_neg h10]
                        dsimp only
                        intro e he
                        refine scores_rooms_updA_any _ roomId _ (fun rm h => ?_) hs e he
                        refine players_updA_scores _ playerId _
                          (fun p hp => by exact hp) ?_
                        exact players_updA_scores rm.players tid _
                          (fun p hp => by exact hp) h
                    · rw [if_neg h9]
                      exact hs

theorem finishPlay_scores (g : Game) (roomId playerId : String) (cardIndex : Int)
    (hs : ScoresOk g) : ScoresOk (finishPlay g roomId playerId cardIndex).2 := by
  unfold finishPlay
  dsimp only
  apply endTurn_scores
  intro e he
  refine scores_rooms_updA_any _ roomId _ (fun rm h => ?_) ?_ e he
  · exact players_updA_scores rm.players playerId _ (fun p hp => by exact hp) h
  · intro e2 he2
    refine drawCards_scores _ roomId 1 ?_ e2 he2
    intro e3 he3
    refine scores_rooms_updA_any _ roomId _ (fun rm h => ?_) hs e3 he3
    exact players_updA_scores rm.players playerId _ (fun p hp => by exact hp) h

theorem startRound_scores (g : Game) (roomId : String) (hs : ScoresOk g) :
    ScoresOk (startRound g roomId) := by
  unfold startRound
  cases hlook : lookupA g.rooms roomId with
  | none => exact hs
  | some room =>
    dsimp only
    intro e he
    refine scores_rooms_updA_any _ roomId _ (fun rm h => ?_) hs e he
    intro q hq
    dsimp only at hq
    simp only [List.mem_map] at hq
    obtain ⟨x, hx, rfl⟩ := hq
    exact h x hx

theorem endGame_scores (g : Game) (roomId : String) (hs : ScoresOk g) :
    ScoresOk (endGame g roomId) := by
  unfold endGame
  cases hlook : lookupA g.rooms roomId with
  | none => exact hs
  | some room =>
    dsimp only
    intro e he
    exact scores_rooms_updA_any _ roomId _ (fun rm h => by exact h) hs e he

theorem endRound_scores (g : Game) (roomId : String) (hs : ScoresOk g) :
    ScoresOk (endRound g roomId) := by
  unfold endRound
  cases hlook : lookupA g.rooms roomId with
  | none => exact hs
  | some room =>
    dsimp only
    cases hw : roundWinnerFold room.players with
    | none =>
      dsimp only
      by_cases hcr : ROUNDS_PER_GAME ≤ room.gameState.currentRound
      · rw [if_pos hcr]
        apply endGame_scores
        intro e he
        exact scores_rooms_updA_at g.rooms roomId _ room hlook
          (fun h => by exact h) hs e he
      · rw [if_neg hcr]
        apply startRound_scores
        intro e he
        refine scores_rooms_updA_any _ roomId _ (fun rm h => ?_) ?_ e he
        · exact h
        · intro e2 he2
          exact scores_rooms_updA_at g.rooms roomId _ room hlook
            (fun h => by exact h) hs e2 he2
    | some wid =>
      dsimp only
      by_cases hcr : ROUNDS_PER_GAME ≤ room.gameState.currentRound
      · rw [if_pos hcr]
        apply endGame_scores
        intro e he
        refine scores_rooms_updA_at g.rooms roomId _ room hlook (fun h => ?_) hs e he
        exact players_updA_scores room.players wid _
          (fun p hp => by exact add_nonneg hp (by decide)) h
      · rw [if_neg hcr]
        apply startRound_scores
        intro e he
        refine scores_rooms_updA_any _ roomId _ (fun rm h => ?_) ?_ e he
        · exact h
        · intro e2 he2
          refine scores_rooms_updA_at g.rooms roomId _ room hlook (fun h => ?_) hs e2 he2
          exact players_updA_scores room.players wid _
            (fun p hp => by exact add_nonneg hp (by decide)) h

theorem addPlayerToRoom_scores (g : Game) (roomId playerId username : String)
    (password : Option String) (hs : ScoresOk g) :
    ScoresOk (addPlayerToRoom g roomId playerId username password).2 := by
  unfold addPlayerToRoom
  cases hlook : lookupA g.rooms roomId with
  | none => exact hs
  | some room =>
    dsimp only
    by_cases h1 : room.hasStarted = true
    · rw [if_pos h1]; exact hs
    · rw [if_neg h1]
      by_cases h2 : MAX_PLAYERS ≤ room.players.length
      · rw [if_pos h2]; exact hs
      · rw [if_neg h2]
        by_cases h3 : (lookupA g.roomPasswords roomId).isSome
            ∧ password ≠ lookupA g.roomPasswords roomId
        · rw [if_pos h3]; exact hs
        · rw [if_neg h3]
          dsimp only
          intro e he
          refine scores_rooms_updA_any _ roomId _ (fun rm h => ?_) ?_ e he
          · intro q hq
            rcases mem_insertA rm.players playerId _ q hq with hq1 | hq1
            · exact h q hq1
            · rw [hq1]
          · intro e2 he2
            exact drawCards_scores g roomId 3 hs e2 he2

theorem handleDisconnectedPlayer_scores (g : Game) (roomId playerId : String)
    (hs : ScoresOk g) : ScoresOk (handleDisconnectedPlayer g roomId playerId) := by
  unfold handleDisconnectedPlayer
  cases hlook : lookupA g.rooms roomId with
  | none => exact hs
  | some room =>
    dsimp only
    by_cases h1 : room.hasStarted = true
    · rw [if_pos h1]
      intro e he
      refine scores_rooms_updA_any _ roomId _ (fun rm h => ?_) hs e he
      exact h
    · rw [if_neg h1]
      intro e he
      refine scores_rooms_updA_any _ roomId _ (fun rm h => ?_) hs e he
      intro q hq
      exact h q (mem_eraseA rm.players playerId q hq)

theorem playCard_scores (g : Game) (roomId playerId : String) (cardIndex : Int)
    (tgt : Option String) (direction : String) (hv : ValsOk g)
    (hs : ScoresOk g) :
    ScoresOk (playCard g roomId playerId cardIndex tgt direction).2 := by
  unfold playCard
  cases hlook : lookupA g.rooms roomId with
  | none => exact hs
  | some room =>
    dsimp only
    by_cases h1 : room.gameState.gameStarted = false
    · rw [if_pos h1]; exact hs
    · rw [if_neg h1]
      cases hpl : lookupA room.players playerId with
      | none => exact hs
      | some player =>
        dsimp only
        by_cases h2 : (player.hand.length : Int) ≤ cardIndex ∨ cardIndex < 0
        · rw [if_pos h2]; exact hs
        · rw [if_neg h2]
          by_cases h3 : room.gameState.currentTurn ≠ some playerId
          · rw [if_pos h3]; exact hs
          · rw [if_neg h3]
            by_cases h4 : room.gameState.winner.isSome
            · rw [if_pos h4]; exact hs
            · rw [if_neg h4]
              cases hcard : player.hand.get? cardIndex.toNat with
              | none => exact hs
              | some card =>
                dsimp only
                have hcv : 0 ≤ card.value := by
                  have hrm : (roomId, room) ∈ g.rooms := lookupA_mem _ _ _ hlook
                  have hpm : (playerId, player) ∈ room.players := lookupA_mem _ _ _ hpl
                  have hcm : card ∈ player.hand := List.get?_mem hcard
                  exact (hv.2 (roomId, room) hrm).2 (playerId, player) hpm card hcm
                by_cases h5 : (card.ctype = "Mind Play"
                      ∨ (card.ctype = "Event" ∧ card.effect = "Swap Places"))
                    ∧ (tgt.bind (lookupA room.players)).isNone
                · rw [if_pos h5]; exact hs
                · rw [if_neg h5]
                  by_cases h6 : card.ctype = "Move"
                  · rw [if_pos h6]
                    split
                    · split
                      · apply endRound_scores
                        intro e he
                        refine scores_rooms_updA_any _ roomId _ (fun rm h => ?_) hs e he
                        exact players_updA_scores rm.players playerId _
                          (fun p hp => by exact add_nonneg hp (Int.natCast_nonneg _)) h
                      · apply finishPlay_scores
                        intro e he
                        refine scores_rooms_updA_any _ roomId _ (fun rm h => ?_) hs e he
                        exact players_updA_scores rm.players playerId _
                          (fun p hp => by exact add_nonneg hp (Int.natCast_nonneg _)) h
                    · split
                      · apply endRound_scores
                        intro e he
                        refine scores_rooms_updA_any _ roomId _ (fun rm h => ?_) hs e he
                        exact players_updA_scores rm.players playerId _
                          (fun p hp => by exact add_nonneg hp (Int.natCast_nonneg _)) h
                      · apply finishPlay_scores
                        intro e he
                        refine scores_rooms_updA_any _ roomId _ (fun rm h => ?_) hs e he
                        exact players_updA_scores rm.players playerId _
                          (fun p hp => by exact add_nonneg hp (Int.natCast_nonneg _)) h
                  · rw [if_neg h6]
                    by_cases h7 : card.ctype = "Event"
                    · rw [if_pos h7]
                      have h8 : ScoresOk (handleEventCard g roomId playerId card tgt).2 :=
                        handleEventCard_scores g roomId playerId card tgt hcv hs
                      cases hres : handleEventCard g roomId playerId card tgt with
                      | mk res g1 =>
                        rw [hres] at h8
                        cases res with
                        | error err => exact h8
                        | ok v =>
                          dsimp only
                          apply finishPlay_scores
                          exact h8
                    · rw [if_neg h7]
                      by_cases h9 : card.ctype = "Mind Play"
                      · rw [if_pos h9]
                        have h8 : ScoresOk (handleMindPlayCard g roomId playerId tgt card).2 :=
                          handleMindPlayCard_scores g roomId playerId tgt card hcv hs
                        cases hres : handleMindPlayCard g roomId playerId tgt card with
                        | mk res g1 =>
                          rw [hres] at h8
                          cases res with
                          | error err => exact h8
                          | ok v =>
                            dsimp only
                            apply finishPlay_scores
                            exact h8
                      · rw [if_neg h9]
                        apply finishPlay_scores
                        exact hs

/-- C10: every player's score stays non-negative.  A joining player starts at
score 0, and each operation preserves `ScoresOk`: Move adds the non-negative
attempted distance, Free Move and Bonus Round add the card value (a
non-negative magnitude, per the spec's catalog) resp. 10, the round winner
gains `WINNING_POINTS`, and Steal Points moves exactly
`min(target.score, value)`, which cannot drive the target below zero.  For
`playCard` the card values reachable in the game are assumed non-negative
(`ValsOk`), as the spec's catalog prescribes magnitudes. -/
theorem c10_scores_nonneg (g : Game) (hs : ScoresOk g) :
    (∀ roomId playerId username password,
        ScoresOk (addPlayerToRoom g roomId playerId username password).2)
    ∧ (∀ roomId playerId cardIndex tgt direction, ValsOk g →
        ScoresOk (playCard g roomId playerId cardIndex tgt direction).2)
    ∧ (∀ roomId, ScoresOk (endTurn g roomId))
    ∧ (∀ roomId, ScoresOk (endRound g roomId))
    ∧ (∀ roomId playerId, ScoresOk (handleDisconnectedPlayer g roomId playerId)) :=
  ⟨fun roomId pid un pw => addPlayerToRoom_scores g roomId pid un pw hs,
   fun roomId pid ci tgt dir hv => playCard_scores g roomId pid ci tgt dir hv hs,
   fun roomId => endTurn_scores g roomId hs,
   fun roomId => endRound_scores g roomId hs,
   fun roomId pid => handleDisconnectedPlayer_scores g roomId pid hs⟩

theorem c10_scores_nonneg_witness :
    ScoresOk c6Game ∧ ValsOk c6Game
    ∧ ScoresOk (playCard c6Game "r" "A" 0 none "forward").2
    ∧ ScoresOk (endRound c6Game "r") :=
  have hs : ScoresOk c6Game := by unfold ScoresOk; decide
  have hv : ValsOk c6Game := by unfold ValsOk RoomValsOk HandValsOk; decide
  ⟨hs, hv,
    (c10_scores_nonneg c6Game hs).2.1 "r" "A" 0 none "forward" hv,
    (c10_scores_nonneg c6Game hs).2.2.2.1 "r"⟩
